import Mathlib

/-!
# giza: vector-field arrows (giza_vector) and text metrics (giza_qtext, giza_qtextlen)

A shallow embedding of `branches/opengl/src/giza-vector.c` (giza_vector and
giza_vector_float) and `src/giza-qtext.c` (giza_qtext, giza_qtextlen and their
single-precision adapters).

* C `double` arithmetic is read over an arbitrary linearly ordered field `α`
  (the theorems about square roots and trigonometry take `α := ℝ`); libm's
  `sqrt`, `cos`, `sin` and the constants of `giza.h` and `giza-private.h` that the
  functions use are parameters.
* `float` arguments are read as exact values too; the cast `(float)` of a result
  is an unspecified rounding `toFloat`.
* C `int` indices are `Int`.
* The global drawing context is an explicit state; every call of giza_vector to an
  external collaborator (`_giza_error`, `giza_arrow`, `giza_begin_buffer`, ...)
  appends one event to the state's trace, and giza_qtextlen returns the warnings
  it emits.
* A read `horizontal[j][i]` outside `0 ≤ j < m`, `0 ≤ i < n` has no result
  (`none`), and so has every computation that performs one.
-/

namespace Giza

/-! ## Data model -/

/-- One call to an external collaborator of the plotting routines. -/
inductive Event (α : Type) where
  | error (caller msg : String)
  | arrow (x1 y1 x2 y2 : α)
  | beginBuffer
  | endBuffer
  | flushDevice
  deriving DecidableEq

/-- The global drawing context as far as giza_vector touches it: whether a device
is open, the buffering flag `Sets.buf`, and the calls made so far (oldest first). -/
structure Ctx (α : Type) where
  ready : Bool
  buf : Bool
  trace : List (Event α)
  deriving DecidableEq

/-- The arguments `n`, `m`, `horizontal[m][n]`, `vertical[m][n]` of giza_vector.
The element `horizontal[j][i]` is `horizontal j i`; only the values at
`0 ≤ j < m`, `0 ≤ i < n` are ever observed. -/
structure Grid (α : Type) where
  n : Int
  m : Int
  horizontal : Int → Int → α
  vertical : Int → Int → α

/-- The argument `affine[6]`: `a, b, c, d, e, f` are `affine[0], ..., affine[5]`. -/
structure Affine (α : Type) where
  a : α
  b : α
  c : α
  d : α
  e : α
  f : α

/-- The cairo matrix type, fields in the order of `cairo_matrix_init`. -/
structure cairo_matrix_t (α : Type) where
  xx : α
  yx : α
  xy : α
  yy : α
  x0 : α
  y0 : α

section Model

variable {α : Type} [LinearOrderedField α]

/-- Is the event a call to `_giza_error`? -/
def Event.isError : Event α → Bool
  | .error _ _ => true
  | _ => false

/-- Is the event a call to `giza_arrow`? -/
def Event.isArrow : Event α → Bool
  | .arrow _ _ _ _ => true
  | _ => false

/-- The endpoints `(x1, y1, x2, y2)` of the `giza_arrow` calls of a trace, in order. -/
def arrowsOf : List (Event α) → List (α × α × α × α)
  | [] => []
  | .arrow x1 y1 x2 y2 :: es => (x1, y1, x2, y2) :: arrowsOf es
  | _ :: es => arrowsOf es

/-! ## External collaborators -/

/-- Modelled from the spec: `_giza_check_device_ready` (giza-private, not in the
sources at hand) is the gate `isDeviceReady` of every entry point. -/
def _giza_check_device_ready (s : Ctx α) : Bool := s.ready

/-- Modelled from the spec: `_giza_error` (giza-io, not in the sources at hand)
reports a user-visible error; it is recorded in the trace. -/
def _giza_error (caller msg : String) (s : Ctx α) : Ctx α :=
  { s with trace := s.trace ++ [Event.error caller msg] }

/-- Modelled from the spec: `giza_arrow` (not in the sources at hand) is the
external stroke primitive; the call is recorded with its four arguments. -/
def giza_arrow (x1 y1 x2 y2 : α) (s : Ctx α) : Ctx α :=
  { s with trace := s.trace ++ [Event.arrow x1 y1 x2 y2] }

/-- Modelled from the spec: `giza_begin_buffer` (not in the sources at hand) sets
the buffering flag `Sets.buf`. -/
def giza_begin_buffer (s : Ctx α) : Ctx α :=
  { s with buf := true, trace := s.trace ++ [Event.beginBuffer] }

/-- Modelled from the spec: `giza_end_buffer` (not in the sources at hand) clears
the buffering flag `Sets.buf`. -/
def giza_end_buffer (s : Ctx α) : Ctx α :=
  { s with buf := false, trace := s.trace ++ [Event.endBuffer] }

/-- Modelled from the spec: `giza_flush_device` (not in the sources at hand)
flushes the queued drawing; the call is recorded. -/
def giza_flush_device (s : Ctx α) : Ctx α :=
  { s with trace := s.trace ++ [Event.flushDevice] }

/-- The cairo call `cairo_matrix_init (&mat, xx, yx, xy, yy, x0, y0)`. -/
def cairo_matrix_init (xx yx xy yy x0 y0 : α) : cairo_matrix_t α :=
  { xx := xx, yx := yx, xy := xy, yy := yy, x0 := x0, y0 := y0 }

/-- The cairo call `cairo_matrix_transform_point (&mat, &x, &y)`:
`x_new = xx·x + xy·y + x0`, `y_new = yx·x + yy·y + y0`. -/
def cairo_matrix_transform_point (mat : cairo_matrix_t α) (p : α × α) : α × α :=
  (mat.xx * p.1 + mat.xy * p.2 + mat.x0, mat.yx * p.1 + mat.yy * p.2 + mat.y0)

/-! ## Grid reads and loops -/

/-- The read `horizontal[j][i]`. -/
def Grid.readH (g : Grid α) (j i : Int) : Option α :=
  if 0 ≤ j ∧ j < g.m ∧ 0 ≤ i ∧ i < g.n then some (g.horizontal j i) else none

/-- The read `vertical[j][i]`. -/
def Grid.readV (g : Grid α) (j i : Int) : Option α :=
  if 0 ≤ j ∧ j < g.m ∧ 0 ≤ i ∧ i < g.n then some (g.vertical j i) else none

/-- The remaining `k` iterations of a loop `for (...; i <= hi; i++) body`, the next
index being `i`. -/
def forLoop {σ : Type} (body : Int → σ → Option σ) : Nat → Int → σ → Option σ
  | 0, _, s => some s
  | k + 1, i, s => (body i s).bind (forLoop body k (i + 1))

/-- The loop `for (i = lo; i <= hi; i++) body`: it runs `hi + 1 - lo` times when
`lo ≤ hi` and not at all otherwise. -/
def forRange {σ : Type} (lo hi : Int) (body : Int → σ → Option σ) (s : σ) : Option σ :=
  forLoop body (hi + 1 - lo).toNat lo s

/-! ## giza_vector -/

/-- Lines 62-69 of giza-vector.c, the body of the auto-scale scan at cell `(j, i)`.
Both arrays have the same bounds, so the second read fails exactly when the first
does and the short-circuit of `&&` is not observable. -/
def scanCell (sqrt : α → α) (g : Grid α) (blank : α) (j i : Int) (dscale : α) : Option α := do
  let h ← g.readH j i
  let v ← g.readV j i
  if h ≠ blank ∧ v ≠ blank then
    let tmp := sqrt (h * h + v * v)
    if tmp > dscale then pure tmp else pure dscale
  else pure dscale

/-- Lines 54-81 of giza-vector.c, "Find the scaling factor". The result is
`none` when a read is out of bounds, `some none` when the function returns at
line 72, and `some (some dscale)` when control reaches line 83 with `dscale`. -/
def findScale (sqrt : α → α) (GIZA_ZERO_DOUBLE : α) (g : Grid α) (i1 i2 j1 j2 : Int)
    (scale : α) (affine : Affine α) (blank : α) : Option (Option α) :=
  let dscale := scale
  if |dscale| < GIZA_ZERO_DOUBLE then
    match forRange j1 j2 (fun j => forRange i1 i2 (fun i => scanCell sqrt g blank j i)) dscale with
    | none => none
    | some dscale =>
      if |dscale| < GIZA_ZERO_DOUBLE then some none
      else
        let dx2 := affine.a * affine.a + affine.b * affine.b
        let dy2 := affine.c * affine.c + affine.d * affine.d
        if dx2 < dy2 then some (some (sqrt dx2 / dscale))
        else some (some (sqrt dy2 / dscale))
  else some (some dscale)

/-- Lines 94-119 of giza-vector.c: the arguments `(x1, y1, x2, y2)` of the
`giza_arrow` call for a cell `(j, i)` holding `(h, v)`. The literal `0.5` is `1/2`. -/
def arrowEnds (dscale : α) (position : Int) (mat : cairo_matrix_t α) (j i : Int) (h v : α) :
    α × α × α × α :=
  let x : α := (i : α) + 1 / 2
  let y : α := (j : α) + 1 / 2
  let p : (α × α) × (α × α) :=
    if position < 0 then
      let x2 := x
      let y2 := y
      let x1 := x2 - h * dscale
      let y1 := y2 - v * dscale
      ((x1, y1), (x2, y2))
    else if position = 0 then
      let x2 := x + 1 / 2 * h * dscale
      let y2 := y + 1 / 2 * v * dscale
      let x1 := x2 - h * dscale
      let y1 := y2 - v * dscale
      ((x1, y1), (x2, y2))
    else
      let x1 := x
      let y1 := y
      let x2 := x1 + h * dscale
      let y2 := y1 + v * dscale
      ((x1, y1), (x2, y2))
  let p1 := cairo_matrix_transform_point mat p.1
  let p2 := cairo_matrix_transform_point mat p.2
  (p1.1, p1.2, p2.1, p2.2)

/-- Lines 92-121 of giza-vector.c, the body of the drawing loop at cell `(j, i)`. -/
def drawCell (g : Grid α) (dscale : α) (position : Int) (mat : cairo_matrix_t α) (blank : α)
    (j i : Int) (s : Ctx α) : Option (Ctx α) := do
  let h ← g.readH j i
  let v ← g.readV j i
  if ¬ (h = blank ∧ v = blank) then
    let r := arrowEnds dscale position mat j i h v
    pure (giza_arrow r.1 r.2.1 r.2.2.1 r.2.2.2 s)
  else pure s

/-- Lines 125-128 of giza-vector.c: close the buffer if this call opened it, then
flush if no buffer is open. -/
def closeBuffer (oldBuf : Bool) (s : Ctx α) : Ctx α :=
  let s := if !oldBuf then giza_end_buffer s else s
  if !s.buf then giza_flush_device s else s

/-- The function `giza_vector` of giza-vector.c (lines 26-129). -/
def giza_vector (sqrt : α → α) (GIZA_ZERO_DOUBLE : α) (g : Grid α) (i1 i2 j1 j2 : Int)
    (scale : α) (position : Int) (affine : Affine α) (blank : α) (s : Ctx α) :
    Option (Ctx α) :=
  if !_giza_check_device_ready s then some s
  else if i1 < 0 ∨ i2 ≥ g.n ∨ i1 > i2 then
    some (_giza_error "giza_vector" "invalid index range for horizontal values" s)
  else if j1 < 0 ∨ j2 ≥ g.m ∨ j1 > j2 then
    some (_giza_error "giza_vector" "invalid index range for vertical values" s)
  else
    let mat := cairo_matrix_init affine.a affine.b affine.c affine.d affine.e affine.f
    match findScale sqrt GIZA_ZERO_DOUBLE g i1 i2 j1 j2 scale affine blank with
    | none => none
    | some none => some s
    | some (some dscale) =>
      let oldBuf := s.buf
      let s := giza_begin_buffer s
      match forRange j1 j2
          (fun j => forRange i1 i2 (fun i => drawCell g dscale position mat blank j i)) s with
      | none => none
      | some s => some (closeBuffer oldBuf s)

/-! ## Descriptions of the loops of giza_vector

Closed forms of what the two loops compute when every read is in bounds; they
are related to the code by `scanLoop_valid`, `drawLoop_valid` and
`giza_vector_valid` below. -/

/-- The `k` consecutive integers from `i` on. -/
def intRange : Nat → Int → List Int
  | 0, _ => []
  | k + 1, i => i :: intRange k (i + 1)

/-- The indices visited by `for (i = lo; i <= hi; i++)`, in order. -/
def span (lo hi : Int) : List Int := intRange (hi + 1 - lo).toNat lo

/-- The cells `(j, i)` visited by the nested loops over `j1..j2` and `i1..i2`, in order. -/
def cellsOf (i1 i2 j1 j2 : Int) : List (Int × Int) :=
  (span j1 j2).flatMap (fun j => (span i1 i2).map (fun i => (j, i)))

/-- The test of line 92: the cell `c = (j, i)` is not blank in both components. -/
def isDrawn (g : Grid α) (blank : α) (c : Int × Int) : Bool :=
  decide (¬ (g.horizontal c.1 c.2 = blank ∧ g.vertical c.1 c.2 = blank))

/-- The in-range cells that pass the test of line 92, in loop order. -/
def drawnCells (g : Grid α) (blank : α) (i1 i2 j1 j2 : Int) : List (Int × Int) :=
  (cellsOf i1 i2 j1 j2).filter (isDrawn g blank)

/-- The arguments of the `giza_arrow` call for the cell `c = (j, i)` of the grid. -/
def cellArrow (g : Grid α) (dscale : α) (position : Int) (affine : Affine α) (c : Int × Int) :
    α × α × α × α :=
  arrowEnds dscale position
    (cairo_matrix_init affine.a affine.b affine.c affine.d affine.e affine.f)
    c.1 c.2 (g.horizontal c.1 c.2) (g.vertical c.1 c.2)

/-- The `giza_arrow` call with the given four arguments. -/
def arrowEvent (r : α × α × α × α) : Event α := Event.arrow r.1 r.2.1 r.2.2.1 r.2.2.2

/-- One step of the auto-scale scan (lines 62-69) on the values stored at `c = (j, i)`. -/
def scanStep (sqrt : α → α) (g : Grid α) (blank : α) (dscale : α) (c : Int × Int) : α :=
  if g.horizontal c.1 c.2 ≠ blank ∧ g.vertical c.1 c.2 ≠ blank then
    if sqrt (g.horizontal c.1 c.2 * g.horizontal c.1 c.2 + g.vertical c.1 c.2 * g.vertical c.1 c.2)
        > dscale then
      sqrt (g.horizontal c.1 c.2 * g.horizontal c.1 c.2 + g.vertical c.1 c.2 * g.vertical c.1 c.2)
    else dscale
  else dscale

/-- The value of `dscale` after the scan of lines 58-71, started at `scale`. -/
def scanMax (sqrt : α → α) (g : Grid α) (blank : α) (i1 i2 j1 j2 : Int) (scale : α) : α :=
  (cellsOf i1 i2 j1 j2).foldl (scanStep sqrt g blank) scale

/-- The scale with which the drawing loop is entered, `none` for the return of line 72. -/
def effScale (sqrt : α → α) (GIZA_ZERO_DOUBLE : α) (g : Grid α) (i1 i2 j1 j2 : Int)
    (scale : α) (affine : Affine α) (blank : α) : Option α :=
  if |scale| < GIZA_ZERO_DOUBLE then
    if |scanMax sqrt g blank i1 i2 j1 j2 scale| < GIZA_ZERO_DOUBLE then none
    else if affine.a * affine.a + affine.b * affine.b < affine.c * affine.c + affine.d * affine.d
    then some (sqrt (affine.a * affine.a + affine.b * affine.b)
      / scanMax sqrt g blank i1 i2 j1 j2 scale)
    else some (sqrt (affine.c * affine.c + affine.d * affine.d)
      / scanMax sqrt g blank i1 i2 j1 j2 scale)
  else some scale

/-- The context with the calls `evs` appended to its trace. -/
def emit (evs : List (Event α)) (s : Ctx α) : Ctx α := { s with trace := s.trace ++ evs }

/-- The context after a call that reached the drawing loop and made the calls
`arrows` inside it: `Sets.buf` as on entry, and `giza_end_buffer`,
`giza_flush_device` called exactly when `Sets.buf` was clear on entry. -/
def finalCtx (s : Ctx α) (arrows : List (Event α)) : Ctx α :=
  { s with trace := s.trace ++ ([Event.beginBuffer] ++ arrows ++
      (if s.buf then [] else [Event.endBuffer, Event.flushDevice])) }

/-! ## giza_qtext -/

/-- The coordinate systems `_giza_set_trans` can install. -/
inductive Trans where
  | GIZA_TRANS_WORLD
  | GIZA_TRANS_IDEN
  | GIZA_TRANS_NORM
  deriving DecidableEq

/-- The drawing context as far as giza_qtext touches it: whether a device is
open, the character height, the transform installed in the cairo context and the
transforms put aside by `cairo_save`. -/
structure TextCtx (α : Type) where
  ready : Bool
  ch : α
  trans : Trans
  saved : List Trans

/-- What giza_qtext takes from libm, from `giza-private.h` and from its external
collaborators: `cos`, `sin`, the constant `GIZA_DEG_TO_RAD`, the point conversions
of the cairo context under each installed transform, and the size pass of the
layout engine, which maps a text and the current character height to the
measured width and height and the character height it leaves behind. -/
structure TextEnv (α : Type) where
  cos : α → α
  sin : α → α
  GIZA_DEG_TO_RAD : α
  userToDevice : Trans → α × α → α × α
  deviceToUser : Trans → α × α → α × α
  parseSize : String → α → α × α × α

/-- Modelled from the spec: `giza_get_character_height` reads the character height. -/
def giza_get_character_height (s : TextCtx α) : α := s.ch

/-- Modelled from the spec: `giza_set_character_height` sets the character height. -/
def giza_set_character_height (ch : α) (s : TextCtx α) : TextCtx α := { s with ch := ch }

/-- The cairo call `cairo_save`: the installed transform is put aside. -/
def cairo_save (s : TextCtx α) : TextCtx α := { s with saved := s.trans :: s.saved }

/-- The cairo call `cairo_restore`: the transform put aside last is installed again. -/
def cairo_restore (s : TextCtx α) : TextCtx α :=
  match s.saved with
  | [] => s
  | t :: rest => { s with trans := t, saved := rest }

/-- Modelled from the spec: `_giza_set_trans` is `setActiveTransformSpace`. -/
def _giza_set_trans (t : Trans) (s : TextCtx α) : TextCtx α := { s with trans := t }

/-- The cairo call `cairo_user_to_device` under the installed transform. -/
def cairo_user_to_device (E : TextEnv α) (s : TextCtx α) (p : α × α) : α × α :=
  E.userToDevice s.trans p

/-- The cairo call `cairo_device_to_user` under the installed transform. -/
def cairo_device_to_user (E : TextEnv α) (s : TextCtx α) (p : α × α) : α × α :=
  E.deviceToUser s.trans p

/-- Modelled from the spec: `_giza_parse_string (text, &width, &height,
_giza_action_get_size)` is `measureText`; it may leave another character height. -/
def _giza_parse_string (E : TextEnv α) (text : String) (s : TextCtx α) : (α × α) × TextCtx α :=
  let r := E.parseSize text s.ch
  ((r.1, r.2.1), { s with ch := r.2.2 })

/-- Lines 73-83 of giza-qtext.c: the arrays `xbox`, `ybox` in device space, from the
anchor `(x, y)` in device space and the measured `width`, `height`. -/
def deviceBox (E : TextEnv α) (x y angle just width height : α) : (Fin 4 → α) × (Fin 4 → α) :=
  let cosangle := E.cos (angle * E.GIZA_DEG_TO_RAD)
  let sinangle := E.sin (angle * E.GIZA_DEG_TO_RAD)
  let xbox0 := x - width * just * cosangle
  let xbox3 := x + width * (1 - just) * cosangle
  let xbox1 := xbox0 - height * sinangle
  let xbox2 := xbox3 - height * sinangle
  let ybox0 := y + width * just * sinangle
  let ybox3 := y - width * (1 - just) * sinangle
  let ybox1 := ybox0 - height * cosangle
  let ybox2 := ybox3 - height * cosangle
  (![xbox0, xbox1, xbox2, xbox3], ![ybox0, ybox1, ybox2, ybox3])

/-- The function `giza_qtext` of giza-qtext.c (lines 43-95). The arguments `xbox`,
`ybox` are the arrays as the caller passes them; the result holds the context and
the two arrays on return. The call `cairo_move_to (context, 0., 0.)` only sets the
current point, which nothing here reads. -/
def giza_qtext (E : TextEnv α) (x y angle just : α) (text : String) (xbox ybox : Fin 4 → α)
    (s : TextCtx α) : TextCtx α × (Fin 4 → α) × (Fin 4 → α) :=
  if !s.ready then (s, xbox, ybox)
  else
    let ch := giza_get_character_height s
    let s := cairo_save s
    let s := _giza_set_trans Trans.GIZA_TRANS_WORLD s
    let p := cairo_user_to_device E s (x, y)
    let s := _giza_set_trans Trans.GIZA_TRANS_IDEN s
    let m := _giza_parse_string E text s
    let s := m.2
    let box := deviceBox E p.1 p.2 angle just m.1.1 m.1.2
    let s := _giza_set_trans Trans.GIZA_TRANS_WORLD s
    let q0 := cairo_device_to_user E s (box.1 0, box.2 0)
    let q1 := cairo_device_to_user E s (box.1 1, box.2 1)
    let q2 := cairo_device_to_user E s (box.1 2, box.2 2)
    let q3 := cairo_device_to_user E s (box.1 3, box.2 3)
    let s := cairo_restore s
    let s := giza_set_character_height ch s
    (s, ![q0.1, q1.1, q2.1, q3.1], ![q0.2, q1.2, q2.2, q3.2])

/-! ## giza_qtext_float, giza_qtextlen, giza_qtextlen_float -/

/-- The function `giza_qtext_float` of giza-qtext.c (lines 104-120). The locals
`xboxd`, `yboxd` are declared without an initialiser: `xboxd`, `yboxd` here are
whatever they hold when giza_qtext is called. The casts to `double` are exact; the
cast `(float)` of the results is the rounding `toFloat`. The result holds the
context and the caller's arrays `xbox`, `ybox` on return, all eight elements of
which are assigned. -/
def giza_qtext_float (E : TextEnv α) (toFloat : α → α) (xboxd yboxd : Fin 4 → α)
    (x y angle just : α) (text : String) (s : TextCtx α) :
    TextCtx α × (Fin 4 → α) × (Fin 4 → α) :=
  let r := giza_qtext E x y angle just text xboxd yboxd s
  let xboxd := r.2.1
  let yboxd := r.2.2
  (r.1, ![toFloat (xboxd 0), toFloat (xboxd 1), toFloat (xboxd 2), toFloat (xboxd 3)],
    ![toFloat (yboxd 0), toFloat (yboxd 1), toFloat (yboxd 2), toFloat (yboxd 3)])

/-- The constants `GIZA_UNITS_*` of giza.h, the case labels of giza_qtextlen. -/
structure Units where
  GIZA_UNITS_NORMALIZED : Int
  GIZA_UNITS_PIXELS : Int
  GIZA_UNITS_DEVICE : Int
  GIZA_UNITS_MM : Int
  GIZA_UNITS_INCHES : Int
  GIZA_UNITS_WORLD : Int

/-- Case labels of one `switch` are pairwise different. -/
def Units.distinct (U : Units) : Prop :=
  [U.GIZA_UNITS_NORMALIZED, U.GIZA_UNITS_PIXELS, U.GIZA_UNITS_DEVICE, U.GIZA_UNITS_MM,
    U.GIZA_UNITS_INCHES, U.GIZA_UNITS_WORLD].Nodup

/-- The fields of the global `Dev` that giza_qtextlen reads. -/
structure Device (α : Type) where
  width : α
  height : α
  deviceUnitsPerPixel : α
  deviceUnitsPermm : α

/-- A call to `_giza_warning`: the caller name and the message. -/
structure Warning where
  caller : String
  msg : String
  deriving DecidableEq

/-- The cairo call `cairo_user_to_device_distance` under the installed transform;
`u2dDistance t` is the conversion when `t` is installed. -/
def cairo_user_to_device_distance (u2dDistance : Trans → α × α → α × α) (s : TextCtx α)
    (p : α × α) : α × α :=
  u2dDistance s.trans p

/-- Lines 157-186 of giza-qtext.c, the `switch (units)`: from the context and the
measured `(xlen, ylen)` to the context, the converted `(xlen, ylen)` and the
warnings emitted. The literal `25.4` is `254/10`. -/
def convertUnits (U : Units) (Dev : Device α) (u2dDistance : Trans → α × α → α × α)
    (units : Int) (xlen ylen : α) (s : TextCtx α) : TextCtx α × α × α × List Warning :=
  if units = U.GIZA_UNITS_NORMALIZED then
    (s, xlen / Dev.width, ylen / Dev.height, [])
  else if units = U.GIZA_UNITS_PIXELS then
    (s, xlen * Dev.deviceUnitsPerPixel, ylen * Dev.deviceUnitsPerPixel, [])
  else if units = U.GIZA_UNITS_DEVICE then
    (s, xlen, ylen, [])
  else if units = U.GIZA_UNITS_MM then
    (s, xlen * Dev.deviceUnitsPermm, ylen * Dev.deviceUnitsPermm, [])
  else if units = U.GIZA_UNITS_INCHES then
    (s, xlen * Dev.deviceUnitsPermm / (254 / 10), ylen * Dev.deviceUnitsPermm / (254 / 10), [])
  else if units = U.GIZA_UNITS_WORLD then
    let s := _giza_set_trans Trans.GIZA_TRANS_NORM s
    let d := cairo_user_to_device_distance u2dDistance s (xlen, ylen)
    (s, d.1, d.2, [])
  else
    (s, xlen / Dev.width, ylen / Dev.height,
      [⟨"giza_get_viewport", "Invalid units, using normalised device units."⟩])

/-- The function `giza_qtextlen` of giza-qtext.c (lines 134-192). Both paths assign
`*xlen` and `*ylen`, so what the caller stored there is not an input. The result
holds the context, `*xlen`, `*ylen` on return and the warnings emitted. -/
def giza_qtextlen (E : TextEnv α) (U : Units) (Dev : Device α)
    (u2dDistance : Trans → α × α → α × α) (units : Int) (text : String) (s : TextCtx α) :
    TextCtx α × α × α × List Warning :=
  if !s.ready then (s, 0, 0, [])
  else
    let ch := giza_get_character_height s
    let s := cairo_save s
    let s := _giza_set_trans Trans.GIZA_TRANS_IDEN s
    let m := _giza_parse_string E text s
    let r := convertUnits U Dev u2dDistance units m.1.1 m.1.2 m.2
    let s := cairo_restore r.1
    let s := giza_set_character_height ch s
    (s, r.2.1, r.2.2.1, r.2.2.2)

/-- The function `giza_qtextlen_float` of giza-qtext.c (lines 201-208). The locals
`xlend`, `ylend` start at 0 and are assigned by giza_qtextlen on both its paths. -/
def giza_qtextlen_float (E : TextEnv α) (toFloat : α → α) (U : Units) (Dev : Device α)
    (u2dDistance : Trans → α × α → α × α) (units : Int) (text : String) (s : TextCtx α) :
    TextCtx α × α × α × List Warning :=
  let r := giza_qtextlen E U Dev u2dDistance units text s
  (r.1, toFloat r.2.1, toFloat r.2.2.1, r.2.2.2)

/-! ## giza_vector_float

The `float` arguments are read as exact values of `α`, as the double ones are. -/

/-- Lines 160-186 of giza-vector.c, "Find the scaling factor" of giza_vector_float:
the first test is against `GIZA_ZERO_FLOAT`, the second against `GIZA_ZERO_DOUBLE`. -/
def findScaleFloat (sqrt : α → α) (GIZA_ZERO_FLOAT GIZA_ZERO_DOUBLE : α) (g : Grid α)
    (i1 i2 j1 j2 : Int) (scale : α) (affine : Affine α) (blank : α) : Option (Option α) :=
  let dscale := scale
  if |scale| < GIZA_ZERO_FLOAT then
    match forRange j1 j2 (fun j => forRange i1 i2 (fun i => scanCell sqrt g blank j i)) dscale with
    | none => none
    | some dscale =>
      if |dscale| < GIZA_ZERO_DOUBLE then some none
      else
        let dx2 := affine.a * affine.a + affine.b * affine.b
        let dy2 := affine.c * affine.c + affine.d * affine.d
        if dx2 < dy2 then some (some (sqrt dx2 / dscale))
        else some (some (sqrt dy2 / dscale))
  else some (some dscale)

/-- Lines 199-223 of giza-vector.c: the arguments `(x1, y1, x2, y2)` of the
`giza_arrow` call of giza_vector_float for a cell `(j, i)` holding `(h, v)`; the
transform is applied to the cell centre only. -/
def arrowEndsFloat (dscale : α) (position : Int) (mat : cairo_matrix_t α) (j i : Int)
    (h v : α) : α × α × α × α :=
  let x : α := (i : α) + 1 / 2
  let y : α := (j : α) + 1 / 2
  let c := cairo_matrix_transform_point mat (x, y)
  let x := c.1
  let y := c.2
  if position < 0 then
    let x2 := x
    let y2 := y
    let x1 := x2 - h * dscale
    let y1 := y2 - v * dscale
    (x1, y1, x2, y2)
  else if position = 0 then
    let x2 := x + 1 / 2 * h * dscale
    let y2 := y + 1 / 2 * v * dscale
    let x1 := x2 - h * dscale
    let y1 := y2 - v * dscale
    (x1, y1, x2, y2)
  else
    let x1 := x
    let y1 := y
    let x2 := x1 + h * dscale
    let y2 := y1 + v * dscale
    (x1, y1, x2, y2)

/-- Lines 197-225 of giza-vector.c, the body of the drawing loop of
giza_vector_float at cell `(j, i)`. -/
def drawCellFloat (g : Grid α) (dscale : α) (position : Int) (mat : cairo_matrix_t α)
    (blank : α) (j i : Int) (s : Ctx α) : Option (Ctx α) := do
  let h ← g.readH j i
  let v ← g.readV j i
  if ¬ (h = blank ∧ v = blank) then
    let r := arrowEndsFloat dscale position mat j i h v
    pure (giza_arrow r.1 r.2.1 r.2.2.1 r.2.2.2 s)
  else pure s

/-- The function `giza_vector_float` of giza-vector.c (lines 131-233). -/
def giza_vector_float (sqrt : α → α) (GIZA_ZERO_FLOAT GIZA_ZERO_DOUBLE : α) (g : Grid α)
    (i1 i2 j1 j2 : Int) (scale : α) (position : Int) (affine : Affine α) (blank : α)
    (s : Ctx α) : Option (Ctx α) :=
  if !_giza_check_device_ready s then some s
  else if i1 < 0 ∨ i2 ≥ g.n ∨ i1 > i2 then
    some (_giza_error "giza_vector" "invalid index range for horizontal values" s)
  else if j1 < 0 ∨ j2 ≥ g.m ∨ j1 > j2 then
    some (_giza_error "giza_vector" "invalid index range for vertical values" s)
  else
    let mat := cairo_matrix_init affine.a affine.b affine.c affine.d affine.e affine.f
    match findScaleFloat sqrt GIZA_ZERO_FLOAT GIZA_ZERO_DOUBLE g i1 i2 j1 j2 scale affine
        blank with
    | none => none
    | some none => some s
    | some (some dscale) =>
      let oldBuf := s.buf
      let s := giza_begin_buffer s
      match forRange j1 j2
          (fun j => forRange i1 i2 (fun i => drawCellFloat g dscale position mat blank j i))
          s with
      | none => none
      | some s => some (closeBuffer oldBuf s)

/-! ## The specification's wording and example inputs -/

/-- The maximum magnitude as the specification words it: the largest
`sqrt (h² + v²)` over the in-range cells that are not blank, a cell being blank
when both its components equal the sentinel. -/
def specMaxMagnitude (sqrt : α → α) (g : Grid α) (blank : α) (i1 i2 j1 j2 : Int) : α :=
  ((drawnCells g blank i1 i2 j1 j2).map (fun c =>
    sqrt (g.horizontal c.1 c.2 * g.horizontal c.1 c.2
      + g.vertical c.1 c.2 * g.vertical c.1 c.2))).foldl max 0

/-- The identity transform `(1, 0, 0, 1, 0, 0)`. -/
def identityAffine : Affine α := ⟨1, 0, 0, 1, 0, 0⟩

/-- The shear `(x, y) ↦ (x + y, y)`, that is `affine = (1, 0, 1, 1, 0, 0)`. -/
def shearAffine : Affine α := ⟨1, 0, 1, 1, 0, 0⟩

/-- An open device with no buffer open and no call made so far. -/
def readyCtx : Ctx α := ⟨true, false, []⟩

/-- The grid with `n` columns and `m` rows holding `(h, v)` in every cell. -/
def constGrid (n m : Int) (h v : α) : Grid α := ⟨n, m, fun _ _ => h, fun _ _ => v⟩

/-- The 2×1 grid with `(3, 4)` in cell `i = 0` and `(0, 0)` in cell `i = 1`. -/
def scenarioGrid : Grid α :=
  ⟨2, 1, fun _ i => if i = 0 then 3 else 0, fun _ i => if i = 0 then 4 else 0⟩

/-- The 2×1 grid with `(3, 4)` in cell `i = 0` and `(0, 12)` in cell `i = 1`. -/
def mixedGrid : Grid α :=
  ⟨2, 1, fun _ i => if i = 0 then 3 else 0, fun _ i => if i = 0 then 4 else 12⟩

/-- The unit constants with the values 0 (NORMALIZED), 1 (INCHES), 2 (MM),
3 (PIXELS), 4 (WORLD), 5 (DEVICE). -/
def sampleUnits : Units := ⟨0, 3, 5, 2, 1, 4⟩

/-- A 640×480 device with one device unit per pixel and four per millimetre. -/
def sampleDevice : Device α := ⟨640, 480, 1, 4⟩

/-- Distance conversions of a context whose world transform scales by 10 (one world
unit is ten device units) and whose normalised transform scales by 100: the user to
device direction. -/
def sampleUserToDeviceDistance : Trans → α × α → α × α
  | Trans.GIZA_TRANS_WORLD, p => (10 * p.1, 10 * p.2)
  | Trans.GIZA_TRANS_IDEN, p => p
  | Trans.GIZA_TRANS_NORM, p => (100 * p.1, 100 * p.2)

/-- The device to user direction of the same context. -/
def sampleDeviceToUserDistance : Trans → α × α → α × α
  | Trans.GIZA_TRANS_WORLD, p => (p.1 / 10, p.2 / 10)
  | Trans.GIZA_TRANS_IDEN, p => p
  | Trans.GIZA_TRANS_NORM, p => (p.1 / 100, p.2 / 100)

/-- An environment with identity point conversions in which every text measures
`20 × 10` and the size pass halves the character height; `cos` and `sin` are
placeholders. -/
def sampleTextEnv : TextEnv α :=
  ⟨fun _ => 1, fun _ => 0, 1, fun _ p => p, fun _ p => p, fun _ ch => (20, 10, ch / 2)⟩

/-- The anchor property of one arrow `r = (x1, y1, x2, y2)` for the cell `c = (j, i)`:
with `C = T (i + 1/2, j + 1/2)` and `T (x, y) = (a·x + c·y + e, b·x + d·y + f)`, the
head `(x2, y2)` is `C` when `position < 0`, the tail `(x1, y1)` is `C` when
`position > 0`, and the midpoint of tail and head is `C` when `position = 0`. -/
def anchored (position : Int) (affine : Affine α) (c : Int × Int) (r : α × α × α × α) : Prop :=
  let cx := affine.a * ((c.2 : α) + 1 / 2) + affine.c * ((c.1 : α) + 1 / 2) + affine.e
  let cy := affine.b * ((c.2 : α) + 1 / 2) + affine.d * ((c.1 : α) + 1 / 2) + affine.f
  (position < 0 → r.2.2.1 = cx ∧ r.2.2.2 = cy) ∧
  (position > 0 → r.1 = cx ∧ r.2.1 = cy) ∧
  (position = 0 → (r.1 + r.2.2.1) / 2 = cx ∧ (r.2.1 + r.2.2.2) / 2 = cy)

/-- The Euclidean distance between the tail `(x1, y1)` and the head `(x2, y2)` of an
arrow `r = (x1, y1, x2, y2)`. -/
def arrowLength (sqrt : α → α) (r : α × α × α × α) : α :=
  sqrt ((r.2.2.1 - r.1) * (r.2.2.1 - r.1) + (r.2.2.2 - r.2.1) * (r.2.2.2 - r.2.1))

/-- The arrays `xbox`, `ybox` of giza_qtext after line 83, in device space, before
lines 86-89 map the four corners back to world coordinates. -/
def qtextDeviceBox (E : TextEnv α) (x y angle just : α) (text : String) (s : TextCtx α) :
    (Fin 4 → α) × (Fin 4 → α) :=
  deviceBox E (E.userToDevice Trans.GIZA_TRANS_WORLD (x, y)).1
    (E.userToDevice Trans.GIZA_TRANS_WORLD (x, y)).2 angle just
    (E.parseSize text s.ch).1 (E.parseSize text s.ch).2.1

/-- The extent `max - min` of the four values of an output array. -/
def extent (b : Fin 4 → α) : α :=
  max (max (b 0) (b 1)) (max (b 2) (b 3)) - min (min (b 0) (b 1)) (min (b 2) (b 3))

end Model
/-! ## The loops in closed form -/

section Loops

variable {α : Type} [LinearOrderedField α]

set_option linter.unusedSectionVars false

theorem forLoop_some {σ : Type} (body : Int → σ → Option σ) (f : Int → σ → σ) :
    ∀ (k : Nat) (lo : Int) (s : σ),
      (∀ i, lo ≤ i → i < lo + k → ∀ t, body i t = some (f i t)) →
      forLoop body k lo s = some ((intRange k lo).foldl (fun t i => f i t) s) := by
  intro k
  induction k with
  | zero => intro lo s _; rfl
  | succ k ih =>
    intro lo s hb
    have h0 : body lo s = some (f lo s) := hb lo le_rfl (by push_cast; omega) s
    simp only [forLoop, h0, Option.some_bind, intRange, List.foldl_cons]
    apply ih
    intro i h1 h2 t
    exact hb i (by omega) (by push_cast; omega) t

theorem forRange_some {σ : Type} (body : Int → σ → Option σ) (f : Int → σ → σ) (lo hi : Int)
    (s : σ) (hb : ∀ i, lo ≤ i → i ≤ hi → ∀ t, body i t = some (f i t)) :
    forRange lo hi body s = some ((span lo hi).foldl (fun t i => f i t) s) := by
  unfold forRange span
  apply forLoop_some
  intro i h1 h2 t
  exact hb i h1 (by omega) t

theorem foldl_flatMap_eq {β γ δ : Type} (l : List β) (f : β → List γ) (g : δ → γ → δ) (d : δ) :
    (l.flatMap f).foldl g d = l.foldl (fun t x => (f x).foldl g t) d := by
  induction l generalizing d with
  | nil => rfl
  | cons x xs ih => simp [List.flatMap_cons, List.foldl_append, ih]

theorem nested_some {σ : Type} (body : Int → Int → σ → Option σ) (f : σ → Int × Int → σ)
    (i1 i2 j1 j2 : Int) (s : σ)
    (hb : ∀ j i, j1 ≤ j → j ≤ j2 → i1 ≤ i → i ≤ i2 → ∀ t, body j i t = some (f t (j, i))) :
    forRange j1 j2 (fun j => forRange i1 i2 (fun i => body j i)) s
      = some ((cellsOf i1 i2 j1 j2).foldl f s) := by
  rw [forRange_some _ (fun j t => (span i1 i2).foldl (fun u i => f u (j, i)) t)]
  · unfold cellsOf
    rw [foldl_flatMap_eq]
    simp [List.foldl_map]
  · intro j h1 h2 t
    exact forRange_some _ (fun i u => f u (j, i)) i1 i2 t (fun i h3 h4 u => hb j i h1 h2 h3 h4 u)

theorem mem_intRange (k : Nat) (lo i : Int) : i ∈ intRange k lo ↔ lo ≤ i ∧ i < lo + k := by
  induction k generalizing lo with
  | zero => simp [intRange]
  | succ k ih =>
    simp only [intRange, List.mem_cons, ih]
    push_cast
    omega

theorem mem_span (lo hi i : Int) : i ∈ span lo hi ↔ lo ≤ i ∧ i ≤ hi := by
  unfold span
  rw [mem_intRange]
  omega

theorem mem_cellsOf (i1 i2 j1 j2 : Int) (c : Int × Int) :
    c ∈ cellsOf i1 i2 j1 j2 ↔ (j1 ≤ c.1 ∧ c.1 ≤ j2) ∧ (i1 ≤ c.2 ∧ c.2 ≤ i2) := by
  obtain ⟨j, i⟩ := c
  simp [cellsOf, List.mem_flatMap, mem_span]

theorem readH_inBounds (g : Grid α) (j i : Int) (hj : 0 ≤ j ∧ j < g.m) (hi : 0 ≤ i ∧ i < g.n) :
    g.readH j i = some (g.horizontal j i) := by
  simp [Grid.readH, hj.1, hj.2, hi.1, hi.2]

theorem readV_inBounds (g : Grid α) (j i : Int) (hj : 0 ≤ j ∧ j < g.m) (hi : 0 ≤ i ∧ i < g.n) :
    g.readV j i = some (g.vertical j i) := by
  simp [Grid.readV, hj.1, hj.2, hi.1, hi.2]

theorem scanLoop_valid (sqrt : α → α) (g : Grid α) (blank : α) (i1 i2 j1 j2 : Int) (scale : α)
    (hi : 0 ≤ i1 ∧ i2 < g.n) (hj : 0 ≤ j1 ∧ j2 < g.m) :
    forRange j1 j2 (fun j => forRange i1 i2 (fun i => scanCell sqrt g blank j i)) scale
      = some (scanMax sqrt g blank i1 i2 j1 j2 scale) := by
  unfold scanMax
  apply nested_some
  intro j i h1 h2 h3 h4 t
  have hH := readH_inBounds g j i ⟨by omega, by omega⟩ ⟨by omega, by omega⟩
  have hV := readV_inBounds g j i ⟨by omega, by omega⟩ ⟨by omega, by omega⟩
  simp only [scanCell, scanStep, hH, hV, Option.bind_eq_bind, Option.some_bind, Option.pure_def]
  split_ifs <;> rfl

theorem emit_foldl {β : Type} (l : List β) (p : β → Bool) (mk : β → Event α) (s : Ctx α) :
    l.foldl (fun t x => if p x then emit [mk x] t else t) s = emit ((l.filter p).map mk) s := by
  induction l generalizing s with
  | nil => simp [emit]
  | cons x xs ih =>
    rw [List.foldl_cons, ih]
    by_cases hp : p x <;> simp [hp, emit, List.filter_cons]

theorem drawLoop_valid (g : Grid α) (dscale : α) (position : Int) (affine : Affine α) (blank : α)
    (i1 i2 j1 j2 : Int) (s : Ctx α) (hi : 0 ≤ i1 ∧ i2 < g.n) (hj : 0 ≤ j1 ∧ j2 < g.m) :
    forRange j1 j2 (fun j => forRange i1 i2 (fun i => drawCell g dscale position
        (cairo_matrix_init affine.a affine.b affine.c affine.d affine.e affine.f) blank j i)) s
      = some (emit ((drawnCells g blank i1 i2 j1 j2).map
          (fun c => arrowEvent (cellArrow g dscale position affine c))) s) := by
  unfold drawnCells
  rw [← emit_foldl]
  apply nested_some
  intro j i h1 h2 h3 h4 t
  have hH := readH_inBounds g j i ⟨by omega, by omega⟩ ⟨by omega, by omega⟩
  have hV := readV_inBounds g j i ⟨by omega, by omega⟩ ⟨by omega, by omega⟩
  simp only [drawCell, hH, hV, Option.bind_eq_bind, Option.some_bind, Option.pure_def, isDrawn,
    cellArrow, arrowEvent, emit, giza_arrow]
  by_cases hb : g.horizontal j i = blank ∧ g.vertical j i = blank
  · simp [hb.1, hb.2]
  · simp only [decide_eq_true_eq, if_pos hb]


theorem findScale_valid (sqrt : α → α) (eps : α) (g : Grid α) (i1 i2 j1 j2 : Int) (scale : α)
    (affine : Affine α) (blank : α) (hi : 0 ≤ i1 ∧ i2 < g.n) (hj : 0 ≤ j1 ∧ j2 < g.m) :
    findScale sqrt eps g i1 i2 j1 j2 scale affine blank
      = some (effScale sqrt eps g i1 i2 j1 j2 scale affine blank) := by
  unfold findScale effScale
  simp only [scanLoop_valid sqrt g blank i1 i2 j1 j2 scale hi hj]
  split_ifs <;> rfl

theorem closeBuffer_begin (s : Ctx α) (evs : List (Event α)) :
    closeBuffer s.buf (emit evs (giza_begin_buffer s)) = finalCtx s evs := by
  cases hb : s.buf <;>
    simp [closeBuffer, emit, giza_begin_buffer, giza_end_buffer, giza_flush_device, finalCtx, hb]

theorem giza_vector_valid (sqrt : α → α) (eps : α) (g : Grid α) (i1 i2 j1 j2 : Int) (scale : α)
    (position : Int) (affine : Affine α) (blank : α) (s : Ctx α) (hr : s.ready = true)
    (hi : 0 ≤ i1 ∧ i1 ≤ i2 ∧ i2 < g.n) (hj : 0 ≤ j1 ∧ j1 ≤ j2 ∧ j2 < g.m) :
    giza_vector sqrt eps g i1 i2 j1 j2 scale position affine blank s
      = some (match effScale sqrt eps g i1 i2 j1 j2 scale affine blank with
        | none => s
        | some dscale => finalCtx s ((drawnCells g blank i1 i2 j1 j2).map
            (fun c => arrowEvent (cellArrow g dscale position affine c)))) := by
  have h1 : ¬ (i1 < 0 ∨ i2 ≥ g.n ∨ i1 > i2) := by omega
  have h2 : ¬ (j1 < 0 ∨ j2 ≥ g.m ∨ j1 > j2) := by omega
  unfold giza_vector
  simp only [_giza_check_device_ready, hr, Bool.not_true, if_neg h1, if_neg h2,
    findScale_valid sqrt eps g i1 i2 j1 j2 scale affine blank ⟨hi.1, hi.2.2⟩ ⟨hj.1, hj.2.2⟩]
  cases effScale sqrt eps g i1 i2 j1 j2 scale affine blank with
  | none => simp
  | some dscale =>
    simp only [drawLoop_valid g dscale position affine blank i1 i2 j1 j2 _ ⟨hi.1, hi.2.2⟩
      ⟨hj.1, hj.2.2⟩]
    simp [closeBuffer_begin]


end Loops

/-! ## Traces -/

section Traces

variable {α : Type} [LinearOrderedField α]

set_option linter.unusedSectionVars false

theorem arrowsOf_append (l1 l2 : List (Event α)) :
    arrowsOf (l1 ++ l2) = arrowsOf l1 ++ arrowsOf l2 := by
  induction l1 with
  | nil => rfl
  | cons e es ih => cases e <;> simp [arrowsOf, ih]

theorem arrowsOf_map {β : Type} (l : List β) (f : β → α × α × α × α) :
    arrowsOf (l.map (fun c => arrowEvent (f c))) = l.map f := by
  induction l with
  | nil => rfl
  | cons c cs ih =>
    rw [List.map_cons, List.map_cons, ← ih]
    rfl

theorem arrowsOf_final (arrows : List (Event α)) (b : Bool) :
    arrowsOf ([Event.beginBuffer] ++ arrows ++
      (if b then [] else [Event.endBuffer, Event.flushDevice])) = arrowsOf arrows := by
  cases b <;> simp [arrowsOf_append, arrowsOf]

end Traces

/-! ## Range checks (C1) -/

section RangeChecks

variable {α : Type} [LinearOrderedField α]

/-- C1: on a ready device, giza_vector with `i1 < 0`, `i2 ≥ n` or `i1 > i2` makes
exactly one call, the error "invalid index range for horizontal values"; otherwise
with `j1 < 0`, `j2 ≥ m` or `j1 > j2` it makes exactly one call, the error "invalid
index range for vertical values"; in both cases the context is otherwise as found
(no arrow, no buffer call). When neither holds the call returns and none of the
calls it makes is an error. -/
theorem giza_vector_range_errors (sqrt : α → α) (eps : α) (g : Grid α) (i1 i2 j1 j2 : Int)
    (scale : α) (position : Int) (affine : Affine α) (blank : α) (s : Ctx α)
    (hr : s.ready = true) :
    ((i1 < 0 ∨ i2 ≥ g.n ∨ i1 > i2) →
      giza_vector sqrt eps g i1 i2 j1 j2 scale position affine blank s
        = some { s with trace := s.trace ++
            [Event.error "giza_vector" "invalid index range for horizontal values"] }) ∧
    (¬ (i1 < 0 ∨ i2 ≥ g.n ∨ i1 > i2) → (j1 < 0 ∨ j2 ≥ g.m ∨ j1 > j2) →
      giza_vector sqrt eps g i1 i2 j1 j2 scale position affine blank s
        = some { s with trace := s.trace ++
            [Event.error "giza_vector" "invalid index range for vertical values"] }) ∧
    (¬ (i1 < 0 ∨ i2 ≥ g.n ∨ i1 > i2) → ¬ (j1 < 0 ∨ j2 ≥ g.m ∨ j1 > j2) →
      ∃ evs : List (Event α),
        giza_vector sqrt eps g i1 i2 j1 j2 scale position affine blank s
          = some { s with trace := s.trace ++ evs } ∧
        ∀ e ∈ evs, e.isError = false) := by
  refine ⟨?_, ?_, ?_⟩
  · intro h
    simp [giza_vector, _giza_check_device_ready, hr, h, _giza_error]
  · intro h1 h2
    simp [giza_vector, _giza_check_device_ready, hr, h1, h2, _giza_error]
  · intro h1 h2
    rw [giza_vector_valid sqrt eps g i1 i2 j1 j2 scale position affine blank s hr
      (by omega) (by omega)]
    cases effScale sqrt eps g i1 i2 j1 j2 scale affine blank with
    | none => exact ⟨[], by simp, by simp⟩
    | some dscale =>
      refine ⟨_, rfl, ?_⟩
      intro e he
      simp only [List.mem_append, List.mem_singleton, List.mem_map] at he
      rcases he with (he | ⟨c, _, he⟩) | he
      · subst he; rfl
      · subst he; rfl
      · cases hb : s.buf
        · simp only [hb, Bool.false_eq_true, if_false, List.mem_cons, List.mem_singleton,
            List.mem_nil_iff, or_false] at he
          rcases he with he | he <;> subst he <;> rfl
        · simp [hb] at he

end RangeChecks

/-- Witness for C1: a bad horizontal range, a bad vertical range and a valid call
on a 1×1 grid over the rationals. -/
theorem giza_vector_range_errors_witness :
    (readyCtx : Ctx ℚ).ready = true ∧
    giza_vector (fun x : ℚ => x) (1 / 10) (constGrid 1 1 3 4) (-1) 0 0 0 1 0 identityAffine 0
        readyCtx
      = some { (readyCtx : Ctx ℚ) with trace := (readyCtx : Ctx ℚ).trace ++
          [Event.error "giza_vector" "invalid index range for horizontal values"] } ∧
    giza_vector (fun x : ℚ => x) (1 / 10) (constGrid 1 1 3 4) 0 0 0 1 1 0 identityAffine 0
        readyCtx
      = some { (readyCtx : Ctx ℚ) with trace := (readyCtx : Ctx ℚ).trace ++
          [Event.error "giza_vector" "invalid index range for vertical values"] } ∧
    ∃ evs : List (Event ℚ),
      giza_vector (fun x : ℚ => x) (1 / 10) (constGrid 1 1 3 4) 0 0 0 0 1 0 identityAffine 0
          readyCtx
        = some { (readyCtx : Ctx ℚ) with trace := (readyCtx : Ctx ℚ).trace ++ evs } ∧
      ∀ e ∈ evs, e.isError = false :=
  ⟨rfl,
   (giza_vector_range_errors (fun x : ℚ => x) (1 / 10) (constGrid 1 1 3 4) (-1) 0 0 0 1 0
      identityAffine 0 readyCtx rfl).1 (Or.inl (by decide)),
   (giza_vector_range_errors (fun x : ℚ => x) (1 / 10) (constGrid 1 1 3 4) 0 0 0 1 1 0
      identityAffine 0 readyCtx rfl).2.1 (by decide) (Or.inr (Or.inl (by decide))),
   (giza_vector_range_errors (fun x : ℚ => x) (1 / 10) (constGrid 1 1 3 4) 0 0 0 0 1 0
      identityAffine 0 readyCtx rfl).2.2 (by decide) (by decide)⟩

/-! ## Auto-scale on concrete grids (C2) -/

theorem cellsOf_two_by_one : cellsOf 0 1 0 0 = [(0, 0), (0, 1)] := by
  decide

theorem sqrt_three_four : Real.sqrt (3 * 3 + 4 * 4) = 5 := by
  rw [show (3 : ℝ) * 3 + 4 * 4 = 5 * 5 by norm_num]
  exact Real.sqrt_mul_self (by norm_num)

theorem sqrt_zero_twelve : Real.sqrt (0 * 0 + 12 * 12) = 12 := by
  rw [show (0 : ℝ) * 0 + 12 * 12 = 12 * 12 by norm_num]
  exact Real.sqrt_mul_self (by norm_num)

theorem scanMax_mixedGrid : scanMax Real.sqrt (mixedGrid : Grid ℝ) 0 0 1 0 0 0 = 5 := by
  simp [scanMax, cellsOf_two_by_one, scanStep, mixedGrid, sqrt_three_four]

theorem effScale_mixedGrid (eps : ℝ) (h0 : 0 < eps) (h5 : eps ≤ 5) :
    effScale Real.sqrt eps (mixedGrid : Grid ℝ) 0 1 0 0 0 identityAffine 0 = some (1 / 5) := by
  have h1 : ¬ ((5 : ℝ) < eps) := not_lt.mpr h5
  simp [effScale, scanMax_mixedGrid, identityAffine, h0, h1]

/-- C2, evaluated on the grid `(3, 4), (0, 12)` with sentinel 0, scale 0 and the
identity transform: the cell `(0, 12)` is not blank (only one component equals the
sentinel) and is drawn, so the specification's maximum is 12 and its scale 1/12;
the scan of lines 58-71 leaves that cell out, derives the scale 1/5 and both arrows
are drawn with it. -/
theorem giza_vector_autoscale_one_sentinel (eps : ℝ) (h0 : 0 < eps) (h5 : eps ≤ 5) :
    specMaxMagnitude Real.sqrt (mixedGrid : Grid ℝ) 0 0 1 0 0 = 12 ∧
    Real.sqrt (min ((1 : ℝ) * 1 + 0 * 0) (0 * 0 + 1 * 1))
      / specMaxMagnitude Real.sqrt (mixedGrid : Grid ℝ) 0 0 1 0 0 = 1 / 12 ∧
    findScale Real.sqrt eps (mixedGrid : Grid ℝ) 0 1 0 0 0 identityAffine 0
      = some (some (1 / 5)) ∧
    giza_vector Real.sqrt eps (mixedGrid : Grid ℝ) 0 1 0 0 0 1 identityAffine 0 readyCtx
      = some ⟨true, false, [Event.beginBuffer,
          Event.arrow (1 / 2) (1 / 2) (11 / 10) (13 / 10),
          Event.arrow (3 / 2) (1 / 2) (3 / 2) (29 / 10),
          Event.endBuffer, Event.flushDevice]⟩ := by
  have hd : drawnCells (mixedGrid : Grid ℝ) 0 0 1 0 0 = [(0, 0), (0, 1)] := by
    simp [drawnCells, cellsOf_two_by_one, isDrawn, mixedGrid, List.filter_cons]
  have hM : specMaxMagnitude Real.sqrt (mixedGrid : Grid ℝ) 0 0 1 0 0 = 12 := by
    unfold specMaxMagnitude
    rw [hd]
    simp [mixedGrid, sqrt_three_four, sqrt_zero_twelve]
    norm_num
  refine ⟨hM, ?_, ?_, ?_⟩
  · rw [hM]
    norm_num
  · rw [findScale_valid _ _ _ _ _ _ _ _ _ _ (by decide) (by decide),
      effScale_mixedGrid eps h0 h5]
  · rw [giza_vector_valid _ _ _ _ _ _ _ _ _ _ _ _ rfl (by decide) (by decide),
      effScale_mixedGrid eps h0 h5]
    rw [hd]
    simp only [finalCtx, readyCtx, List.map_cons, List.map_nil, arrowEvent, cellArrow,
      arrowEnds, cairo_matrix_init, cairo_matrix_transform_point, identityAffine, mixedGrid]
    norm_num

/-- Witness for C2 at the zero epsilon `10⁻¹⁰`. -/
theorem giza_vector_autoscale_one_sentinel_witness :
    (0 : ℝ) < 1 / 10 ^ 10 ∧ (1 : ℝ) / 10 ^ 10 ≤ 5 ∧
    findScale Real.sqrt (1 / 10 ^ 10) (mixedGrid : Grid ℝ) 0 1 0 0 0 identityAffine 0
      = some (some (1 / 5)) :=
  ⟨by norm_num, by norm_num,
   (giza_vector_autoscale_one_sentinel (1 / 10 ^ 10) (by norm_num) (by norm_num)).2.2.1⟩

theorem scan_foldl_eq_max (g : Grid ℝ) (blank : ℝ) (l : List (Int × Int)) (d : ℝ)
    (hsym : ∀ c ∈ l, (g.horizontal c.1 c.2 = blank ↔ g.vertical c.1 c.2 = blank)) :
    l.foldl (scanStep Real.sqrt g blank) d
      = ((l.filter (isDrawn g blank)).map (fun c =>
          Real.sqrt (g.horizontal c.1 c.2 * g.horizontal c.1 c.2
            + g.vertical c.1 c.2 * g.vertical c.1 c.2))).foldl max d := by
  induction l generalizing d with
  | nil => rfl
  | cons c cs ih =>
    have hc := hsym c (List.mem_cons_self c cs)
    have hcs : ∀ c ∈ cs, (g.horizontal c.1 c.2 = blank ↔ g.vertical c.1 c.2 = blank) :=
      fun c h => hsym c (List.mem_cons_of_mem _ h)
    rw [List.foldl_cons, ih _ hcs]
    by_cases hb : g.horizontal c.1 c.2 = blank
    · have hv : g.vertical c.1 c.2 = blank := hc.mp hb
      have hnd : isDrawn g blank c = false := by simp [isDrawn, hb, hv]
      have hstep : scanStep Real.sqrt g blank d c = d := by simp [scanStep, hb]
      rw [List.filter_cons_of_neg (by simp [hnd]), hstep]
    · have hv : ¬ g.vertical c.1 c.2 = blank := fun h => hb (hc.mpr h)
      have hdr : isDrawn g blank c = true := by simp [isDrawn, hb]
      have hstep : scanStep Real.sqrt g blank d c
          = max d (Real.sqrt (g.horizontal c.1 c.2 * g.horizontal c.1 c.2
              + g.vertical c.1 c.2 * g.vertical c.1 c.2)) := by
        unfold scanStep
        rw [if_pos ⟨hb, hv⟩]
        split_ifs with hgt
        · exact (max_eq_right hgt.le).symm
        · exact (max_eq_left (not_lt.mp hgt)).symm
      rw [List.filter_cons_of_pos hdr, List.map_cons, List.foldl_cons, hstep]

/-- The auto-scale formula on the grids where the scan and the drawing loop agree on
which cells are blank (no in-range cell has exactly one component equal to the
sentinel): with scale 0 and the specification's maximum not below the zero epsilon,
the drawing loop is entered with `sqrt (min (a² + b²) (c² + d²)) / M`. -/
theorem findScale_formula_of_symmetric_blanks (eps : ℝ) (h0 : 0 < eps) (g : Grid ℝ)
    (i1 i2 j1 j2 : Int) (affine : Affine ℝ) (blank : ℝ)
    (hi : 0 ≤ i1 ∧ i1 ≤ i2 ∧ i2 < g.n) (hj : 0 ≤ j1 ∧ j1 ≤ j2 ∧ j2 < g.m)
    (hsym : ∀ j i, j1 ≤ j → j ≤ j2 → i1 ≤ i → i ≤ i2 →
      (g.horizontal j i = blank ↔ g.vertical j i = blank))
    (hM : ¬ specMaxMagnitude Real.sqrt g blank i1 i2 j1 j2 < eps) :
    findScale Real.sqrt eps g i1 i2 j1 j2 0 affine blank
      = some (some (Real.sqrt (min (affine.a * affine.a + affine.b * affine.b)
          (affine.c * affine.c + affine.d * affine.d))
          / specMaxMagnitude Real.sqrt g blank i1 i2 j1 j2)) := by
  have hscan : scanMax Real.sqrt g blank i1 i2 j1 j2 0
      = specMaxMagnitude Real.sqrt g blank i1 i2 j1 j2 := by
    unfold scanMax specMaxMagnitude drawnCells
    apply scan_foldl_eq_max
    intro c hc
    rw [mem_cellsOf] at hc
    exact hsym c.1 c.2 hc.1.1 hc.1.2 hc.2.1 hc.2.2
  have hpos : 0 ≤ specMaxMagnitude Real.sqrt g blank i1 i2 j1 j2 := by
    have := not_lt.mp hM
    linarith
  rw [findScale_valid _ _ _ _ _ _ _ _ _ _ ⟨hi.1, hi.2.2⟩ ⟨hj.1, hj.2.2⟩]
  unfold effScale
  rw [hscan, if_pos (by simpa using h0), abs_of_nonneg hpos, if_neg hM]
  by_cases hlt : affine.a * affine.a + affine.b * affine.b
      < affine.c * affine.c + affine.d * affine.d
  · rw [if_pos hlt, min_eq_left hlt.le]
  · rw [if_neg hlt, min_eq_right (not_lt.mp hlt)]

/-! ## Anchor policy (C3) -/

section Anchor

variable {α : Type} [LinearOrderedField α]

theorem cellArrow_anchored (g : Grid α) (dscale : α) (position : Int) (affine : Affine α)
    (c : Int × Int) : anchored position affine c (cellArrow g dscale position affine c) := by
  unfold anchored cellArrow arrowEnds cairo_matrix_transform_point cairo_matrix_init
  refine ⟨?_, ?_, ?_⟩
  · intro hp
    simp [hp]
  · intro hp
    have h1 : ¬ position < 0 := by omega
    have h2 : ¬ position = 0 := by omega
    simp [h1, h2]
  · intro hp
    subst hp
    simp only [lt_irrefl, if_false, if_true]
    constructor <;> ring

/-- C3: on a ready device with valid ranges the call returns, and the arrows it
passes to giza_arrow are, in order, one for each cell of a list `cs` (no cell, or
the in-range cells that are not blank in both components), each satisfying the
anchor property for its cell: head at `T (i + 1/2, j + 1/2)` for `position < 0`,
tail there for `position > 0`, midpoint there for `position = 0`. -/
theorem giza_vector_anchor (sqrt : α → α) (eps : α) (g : Grid α) (i1 i2 j1 j2 : Int)
    (scale : α) (position : Int) (affine : Affine α) (blank : α) (s : Ctx α)
    (hr : s.ready = true) (hi : 0 ≤ i1 ∧ i1 ≤ i2 ∧ i2 < g.n) (hj : 0 ≤ j1 ∧ j1 ≤ j2 ∧ j2 < g.m) :
    ∃ (evs : List (Event α)) (cs : List (Int × Int)),
      giza_vector sqrt eps g i1 i2 j1 j2 scale position affine blank s
        = some { s with trace := s.trace ++ evs } ∧
      (cs = [] ∨ cs = drawnCells g blank i1 i2 j1 j2) ∧
      List.Forall₂ (anchored position affine) cs (arrowsOf evs) := by
  rw [giza_vector_valid sqrt eps g i1 i2 j1 j2 scale position affine blank s hr hi hj]
  cases effScale sqrt eps g i1 i2 j1 j2 scale affine blank with
  | none => exact ⟨[], [], by simp, Or.inl rfl, by simp [arrowsOf]⟩
  | some dscale =>
    refine ⟨_, drawnCells g blank i1 i2 j1 j2, rfl, Or.inr rfl, ?_⟩
    rw [arrowsOf_final, arrowsOf_map, List.forall₂_map_right_iff, List.forall₂_same]
    intro c _
    exact cellArrow_anchored g dscale position affine c

end Anchor

/-- Witness for C3: the scenario grid with explicit scale 1 and centred arrows. -/
theorem giza_vector_anchor_witness :
    (readyCtx : Ctx ℚ).ready = true ∧
    (0 ≤ (0 : Int) ∧ (0 : Int) ≤ 1 ∧ 1 < (scenarioGrid : Grid ℚ).n) ∧
    (0 ≤ (0 : Int) ∧ (0 : Int) ≤ 0 ∧ 0 < (scenarioGrid : Grid ℚ).m) ∧
    ∃ (evs : List (Event ℚ)) (cs : List (Int × Int)),
      giza_vector (fun x : ℚ => x) (1 / 10) scenarioGrid 0 1 0 0 1 0 ⟨2, 1, 0, 3, 5, 7⟩ 0 readyCtx
        = some { (readyCtx : Ctx ℚ) with trace := (readyCtx : Ctx ℚ).trace ++ evs } ∧
      (cs = [] ∨ cs = drawnCells (scenarioGrid : Grid ℚ) 0 0 1 0 0) ∧
      List.Forall₂ (anchored 0 ⟨2, 1, 0, 3, 5, 7⟩) cs (arrowsOf evs) :=
  ⟨rfl, by decide, by decide,
   giza_vector_anchor (fun x : ℚ => x) (1 / 10) scenarioGrid 0 1 0 0 1 0 ⟨2, 1, 0, 3, 5, 7⟩ 0
    readyCtx rfl (by decide) (by decide)⟩

/-! ## Arrow length (C4) -/

section ArrowVector

variable {α : Type} [LinearOrderedField α]

theorem arrowEnds_diff (dscale : α) (position : Int) (mat : cairo_matrix_t α) (j i : Int)
    (h v : α) :
    (arrowEnds dscale position mat j i h v).2.2.1 - (arrowEnds dscale position mat j i h v).1
        = mat.xx * (h * dscale) + mat.xy * (v * dscale) ∧
    (arrowEnds dscale position mat j i h v).2.2.2 - (arrowEnds dscale position mat j i h v).2.1
        = mat.yx * (h * dscale) + mat.yy * (v * dscale) := by
  unfold arrowEnds cairo_matrix_transform_point
  by_cases h1 : position < 0
  · simp only [h1, if_true]
    constructor <;> ring
  · by_cases h2 : position = 0
    · subst h2
      simp only [lt_irrefl, if_true, if_false]
      constructor <;> ring
    · simp only [h1, h2, if_false]
      constructor <;> ring

end ArrowVector

theorem arrowLength_arrowEnds (dscale : ℝ) (hs : 0 ≤ dscale) (position : Int)
    (mat : cairo_matrix_t ℝ) (j i : Int) (h v : ℝ) :
    arrowLength Real.sqrt (arrowEnds dscale position mat j i h v)
      = dscale * Real.sqrt ((mat.xx * h + mat.xy * v) * (mat.xx * h + mat.xy * v)
          + (mat.yx * h + mat.yy * v) * (mat.yx * h + mat.yy * v)) := by
  obtain ⟨hx, hy⟩ := arrowEnds_diff dscale position mat j i h v
  unfold arrowLength
  rw [hx, hy]
  rw [show (mat.xx * (h * dscale) + mat.xy * (v * dscale))
        * (mat.xx * (h * dscale) + mat.xy * (v * dscale))
      + (mat.yx * (h * dscale) + mat.yy * (v * dscale))
        * (mat.yx * (h * dscale) + mat.yy * (v * dscale))
      = dscale * dscale * ((mat.xx * h + mat.xy * v) * (mat.xx * h + mat.xy * v)
          + (mat.yx * h + mat.yy * v) * (mat.yx * h + mat.yy * v)) by ring]
  rw [Real.sqrt_mul (mul_self_nonneg dscale), Real.sqrt_mul_self hs]

/-- C4 as stated fails: one cell `(3, 4)`, explicit scale 1, the transform
`(2, 0, 0, 2, 0, 0)`. The arrow passed to giza_arrow runs from `(1, 1)` to `(7, 9)`;
its length is 10, not `1 · sqrt (3² + 4²) = 5`. -/
theorem giza_vector_arrow_length_scaled_affine :
    giza_vector Real.sqrt (1 / 10 ^ 10) (constGrid 1 1 (3 : ℝ) 4) 0 0 0 0 1 1 ⟨2, 0, 0, 2, 0, 0⟩ 0
        readyCtx
      = some ⟨true, false,
          [Event.beginBuffer, Event.arrow 1 1 7 9, Event.endBuffer, Event.flushDevice]⟩ ∧
    arrowLength Real.sqrt ((1 : ℝ), (1 : ℝ), (7 : ℝ), (9 : ℝ)) = 10 ∧
    (1 : ℝ) * Real.sqrt (3 * 3 + 4 * 4) = 5 ∧
    arrowLength Real.sqrt ((1 : ℝ), (1 : ℝ), (7 : ℝ), (9 : ℝ))
      ≠ 1 * Real.sqrt (3 * 3 + 4 * 4) := by
  have hL : arrowLength Real.sqrt ((1 : ℝ), (1 : ℝ), (7 : ℝ), (9 : ℝ)) = 10 := by
    unfold arrowLength
    rw [show ((7 : ℝ) - 1) * (7 - 1) + (9 - 1) * (9 - 1) = 10 * 10 by norm_num]
    exact Real.sqrt_mul_self (by norm_num)
  refine ⟨?_, hL, by rw [sqrt_three_four]; norm_num, by rw [hL, sqrt_three_four]; norm_num⟩
  rw [giza_vector_valid _ _ _ _ _ _ _ _ _ _ _ _ rfl (by decide) (by decide)]
  have he : effScale Real.sqrt (1 / 10 ^ 10) (constGrid 1 1 (3 : ℝ) 4) 0 0 0 0 1
      ⟨2, 0, 0, 2, 0, 0⟩ 0 = some 1 := by
    unfold effScale
    rw [if_neg (by norm_num)]
  have hd : drawnCells (constGrid 1 1 (3 : ℝ) 4) 0 0 0 0 0 = [(0, 0)] := by
    have hc : cellsOf 0 0 0 0 = [(0, 0)] := by decide
    simp [drawnCells, hc, isDrawn, constGrid]
  rw [he, hd]
  simp only [finalCtx, readyCtx, List.map_cons, List.map_nil, arrowEvent, cellArrow,
    arrowEnds, cairo_matrix_init, cairo_matrix_transform_point, constGrid]
  norm_num

theorem drawnCells_uniform (g : Grid ℝ) (blank h v : ℝ) (i1 i2 j1 j2 : Int)
    (hu : ∀ j i, j1 ≤ j → j ≤ j2 → i1 ≤ i → i ≤ i2 → g.horizontal j i = h ∧ g.vertical j i = v)
    (hnb : ¬ (h = blank ∧ v = blank)) :
    drawnCells g blank i1 i2 j1 j2 = cellsOf i1 i2 j1 j2 := by
  unfold drawnCells
  rw [List.filter_eq_self]
  intro c hc
  rw [mem_cellsOf] at hc
  obtain ⟨hh, hv⟩ := hu c.1 c.2 hc.1.1 hc.1.2 hc.2.1 hc.2.2
  simp only [isDrawn, hh, hv, decide_eq_true_eq]
  exact hnb

/-- C4, amended: for a grid whose in-range cells all hold the same vector `(h, v)`,
not blank in both components, and an explicit scale `s > 0` not below the zero
epsilon, the call emits one arrow per in-range cell and the distance between the
tail and the head passed to giza_arrow is `s · sqrt ((a·h + c·v)² + (b·h + d·v)²)`
for every cell, whatever the anchor policy; it is `s · sqrt (h² + v²)` when the
linear part of the transform preserves lengths (`a² + b² = 1`, `c² + d² = 1`,
`a·c + b·d = 0`), as for the identity. -/
theorem giza_vector_arrow_length (eps : ℝ) (g : Grid ℝ) (i1 i2 j1 j2 : Int) (scale : ℝ)
    (position : Int) (affine : Affine ℝ) (blank h v : ℝ) (s : Ctx ℝ)
    (hr : s.ready = true) (hi : 0 ≤ i1 ∧ i1 ≤ i2 ∧ i2 < g.n) (hj : 0 ≤ j1 ∧ j1 ≤ j2 ∧ j2 < g.m)
    (hs : 0 < scale) (hse : eps ≤ scale)
    (hu : ∀ j i, j1 ≤ j → j ≤ j2 → i1 ≤ i → i ≤ i2 → g.horizontal j i = h ∧ g.vertical j i = v)
    (hnb : ¬ (h = blank ∧ v = blank)) :
    ∃ evs : List (Event ℝ),
      giza_vector Real.sqrt eps g i1 i2 j1 j2 scale position affine blank s
        = some { s with trace := s.trace ++ evs } ∧
      (arrowsOf evs).length = (cellsOf i1 i2 j1 j2).length ∧
      ∀ r ∈ arrowsOf evs,
        arrowLength Real.sqrt r
          = scale * Real.sqrt ((affine.a * h + affine.c * v) * (affine.a * h + affine.c * v)
              + (affine.b * h + affine.d * v) * (affine.b * h + affine.d * v)) ∧
        (affine.a * affine.a + affine.b * affine.b = 1 →
          affine.c * affine.c + affine.d * affine.d = 1 →
          affine.a * affine.c + affine.b * affine.d = 0 →
          arrowLength Real.sqrt r = scale * Real.sqrt (h * h + v * v)) := by
  rw [giza_vector_valid Real.sqrt eps g i1 i2 j1 j2 scale position affine blank s hr hi hj]
  have he : effScale Real.sqrt eps g i1 i2 j1 j2 scale affine blank = some scale := by
    unfold effScale
    rw [if_neg]
    rw [abs_of_pos hs]
    exact not_lt.mpr hse
  rw [he, drawnCells_uniform g blank h v i1 i2 j1 j2 hu hnb]
  refine ⟨_, rfl, ?_, ?_⟩
  · rw [arrowsOf_final, arrowsOf_map, List.length_map]
  · intro r hmem
    rw [arrowsOf_final, arrowsOf_map, List.mem_map] at hmem
    obtain ⟨c, hc, rfl⟩ := hmem
    rw [mem_cellsOf] at hc
    obtain ⟨hh, hv⟩ := hu c.1 c.2 hc.1.1 hc.1.2 hc.2.1 hc.2.2
    have hlen := arrowLength_arrowEnds scale hs.le position
      (cairo_matrix_init affine.a affine.b affine.c affine.d affine.e affine.f) c.1 c.2 h v
    simp only [cairo_matrix_init] at hlen
    unfold cellArrow
    rw [hh, hv]
    simp only [cairo_matrix_init]
    refine ⟨hlen, ?_⟩
    intro h1 h2 h3
    rw [hlen]
    congr 2
    have e1 : (affine.a * h + affine.c * v) * (affine.a * h + affine.c * v)
        + (affine.b * h + affine.d * v) * (affine.b * h + affine.d * v)
        = (affine.a * affine.a + affine.b * affine.b) * (h * h)
          + (affine.c * affine.c + affine.d * affine.d) * (v * v)
          + 2 * (affine.a * affine.c + affine.b * affine.d) * (h * v) := by ring
    rw [e1, h1, h2, h3]
    ring

/-- Witness for C4 (amended): a 2×2 grid of `(3, 4)` cells, scale 2, a quarter-turn
rotation with a translation. -/
theorem giza_vector_arrow_length_witness :
    ∃ evs : List (Event ℝ),
      giza_vector Real.sqrt (1 / 10 ^ 10) (constGrid 2 2 (3 : ℝ) 4) 0 1 0 1 2 0
          ⟨0, 1, -1, 0, 5, 7⟩ 0 readyCtx
        = some { (readyCtx : Ctx ℝ) with trace := (readyCtx : Ctx ℝ).trace ++ evs } ∧
      (arrowsOf evs).length = (cellsOf 0 1 0 1).length ∧
      ∀ r ∈ arrowsOf evs,
        arrowLength Real.sqrt r
          = 2 * Real.sqrt (((0 : ℝ) * 3 + (-1) * 4) * ((0 : ℝ) * 3 + (-1) * 4)
              + ((1 : ℝ) * 3 + 0 * 4) * ((1 : ℝ) * 3 + 0 * 4)) ∧
        ((0 : ℝ) * 0 + 1 * 1 = 1 → (-1 : ℝ) * (-1) + 0 * 0 = 1 → (0 : ℝ) * (-1) + 1 * 0 = 0 →
          arrowLength Real.sqrt r = 2 * Real.sqrt (3 * 3 + 4 * 4)) :=
  giza_vector_arrow_length (1 / 10 ^ 10) (constGrid 2 2 (3 : ℝ) 4) 0 1 0 1 2 0
    ⟨0, 1, -1, 0, 5, 7⟩ 0 3 4 readyCtx rfl (by decide) (by decide) (by norm_num) (by norm_num)
    (fun _ _ _ _ _ _ => ⟨rfl, rfl⟩) (by norm_num)

/-! ## Empty fields (C5, C6) -/

theorem foldl_invariant {β γ : Type} (P : γ → Prop) (f : γ → β → γ) (l : List β) (d : γ)
    (h0 : P d) (hstep : ∀ t c, c ∈ l → P t → P (f t c)) : P (l.foldl f d) := by
  induction l generalizing d with
  | nil => exact h0
  | cons x xs ih =>
    rw [List.foldl_cons]
    apply ih
    · exact hstep d x (List.mem_cons_self x xs) h0
    · intro t c hc ht
      exact hstep t c (List.mem_cons_of_mem x hc) ht

theorem scanMax_small (eps : ℝ) (g : Grid ℝ) (blank : ℝ) (i1 i2 j1 j2 : Int) (scale : ℝ)
    (hsc : |scale| < eps)
    (hcells : ∀ j i, j1 ≤ j → j ≤ j2 → i1 ≤ i → i ≤ i2 →
      (g.horizontal j i = blank ∧ g.vertical j i = blank) ∨
      Real.sqrt (g.horizontal j i * g.horizontal j i + g.vertical j i * g.vertical j i) < eps) :
    |scanMax Real.sqrt g blank i1 i2 j1 j2 scale| < eps := by
  unfold scanMax
  apply foldl_invariant (fun d : ℝ => |d| < eps) _ _ _ hsc
  intro t c hc ht
  rw [mem_cellsOf] at hc
  unfold scanStep
  split_ifs with hb hgt
  · rcases hcells c.1 c.2 hc.1.1 hc.1.2 hc.2.1 hc.2.2 with h | h
    · exact absurd h.1 hb.1
    · rw [abs_of_nonneg (Real.sqrt_nonneg _)]
      exact h
  · exact ht
  · exact ht

theorem zero_of_sqrt_eq_zero (h v : ℝ) (hz : Real.sqrt (h * h + v * v) = 0) : h = 0 ∧ v = 0 := by
  rw [Real.sqrt_eq_zero'] at hz
  have h1 : 0 ≤ h * h := mul_self_nonneg h
  have h2 : 0 ≤ v * v := mul_self_nonneg v
  constructor
  · exact mul_self_eq_zero.mp (by linarith)
  · exact mul_self_eq_zero.mp (by linarith)

/-- C5 as stated fails: a 1×1 grid holding the zero vector, sentinel 9, explicit
scale 1. The cell has zero magnitude, yet giza_begin_buffer, giza_arrow (with tail
and head both at `(1/2, 1/2)`), giza_end_buffer and giza_flush_device are called. -/
theorem giza_vector_zero_field_explicit_scale :
    Real.sqrt ((0 : ℝ) * 0 + 0 * 0) = 0 ∧
    giza_vector Real.sqrt (1 / 10 ^ 10) (constGrid 1 1 (0 : ℝ) 0) 0 0 0 0 1 0 identityAffine 9
        readyCtx
      = some ⟨true, false, [Event.beginBuffer, Event.arrow (1 / 2) (1 / 2) (1 / 2) (1 / 2),
          Event.endBuffer, Event.flushDevice]⟩ := by
  refine ⟨by simp, ?_⟩
  rw [giza_vector_valid _ _ _ _ _ _ _ _ _ _ _ _ rfl (by decide) (by decide)]
  have he : effScale Real.sqrt (1 / 10 ^ 10) (constGrid 1 1 (0 : ℝ) 0) 0 0 0 0 1
      identityAffine 9 = some 1 := by
    unfold effScale
    rw [if_neg (by norm_num)]
  have hd : drawnCells (constGrid 1 1 (0 : ℝ) 0) 9 0 0 0 0 = [(0, 0)] := by
    have hc : cellsOf 0 0 0 0 = [(0, 0)] := by decide
    simp [drawnCells, hc, isDrawn, constGrid]
  rw [he, hd]
  simp only [finalCtx, readyCtx, List.map_cons, List.map_nil, arrowEvent, cellArrow,
    arrowEnds, cairo_matrix_init, cairo_matrix_transform_point, constGrid, identityAffine]
  norm_num

/-- C5, amended: on a ready device with valid ranges and a grid whose in-range
cells are each blank (both components equal the sentinel) or of zero magnitude:
when `|scale|` is below the zero epsilon the call returns with the context exactly
as found (no arrow, no giza_begin_buffer, giza_end_buffer or giza_flush_device);
for every scale the call returns with `Sets.buf` as on entry, every arrow passed to
giza_arrow has its tail equal to its head, and no arrow is passed at all when every
in-range cell is blank. -/
theorem giza_vector_empty_field (eps : ℝ) (g : Grid ℝ) (i1 i2 j1 j2 : Int)
    (scale : ℝ) (position : Int) (affine : Affine ℝ) (blank : ℝ) (s : Ctx ℝ)
    (hr : s.ready = true) (hi : 0 ≤ i1 ∧ i1 ≤ i2 ∧ i2 < g.n) (hj : 0 ≤ j1 ∧ j1 ≤ j2 ∧ j2 < g.m)
    (hcells : ∀ j i, j1 ≤ j → j ≤ j2 → i1 ≤ i → i ≤ i2 →
      (g.horizontal j i = blank ∧ g.vertical j i = blank) ∨
      Real.sqrt (g.horizontal j i * g.horizontal j i + g.vertical j i * g.vertical j i) = 0) :
    (|scale| < eps →
      giza_vector Real.sqrt eps g i1 i2 j1 j2 scale position affine blank s = some s) ∧
    ∃ evs : List (Event ℝ),
      giza_vector Real.sqrt eps g i1 i2 j1 j2 scale position affine blank s
        = some { s with trace := s.trace ++ evs } ∧
      (∀ r ∈ arrowsOf evs, r.1 = r.2.2.1 ∧ r.2.1 = r.2.2.2) ∧
      ((∀ j i, j1 ≤ j → j ≤ j2 → i1 ≤ i → i ≤ i2 →
          g.horizontal j i = blank ∧ g.vertical j i = blank) → arrowsOf evs = []) := by
  rw [giza_vector_valid Real.sqrt eps g i1 i2 j1 j2 scale position affine blank s hr hi hj]
  constructor
  · intro hsc
    have he : effScale Real.sqrt eps g i1 i2 j1 j2 scale affine blank = none := by
      unfold effScale
      rw [if_pos hsc, if_pos]
      apply scanMax_small eps g blank i1 i2 j1 j2 scale hsc
      intro j i h1 h2 h3 h4
      rcases hcells j i h1 h2 h3 h4 with h | h
      · exact Or.inl h
      · right
        rw [h]
        exact lt_of_le_of_lt (abs_nonneg scale) hsc
    rw [he]
  · cases effScale Real.sqrt eps g i1 i2 j1 j2 scale affine blank with
    | none => exact ⟨[], by simp, by simp [arrowsOf], fun _ => rfl⟩
    | some dscale =>
      refine ⟨_, rfl, ?_, ?_⟩
      · intro r hmem
        rw [arrowsOf_final, arrowsOf_map, List.mem_map] at hmem
        obtain ⟨c, hc, rfl⟩ := hmem
        unfold drawnCells at hc
        rw [List.mem_filter, mem_cellsOf] at hc
        obtain ⟨hin, hdr⟩ := hc
        simp only [isDrawn, decide_eq_true_eq] at hdr
        rcases hcells c.1 c.2 hin.1.1 hin.1.2 hin.2.1 hin.2.2 with h | h
        · exact absurd h hdr
        · obtain ⟨hh, hv⟩ := zero_of_sqrt_eq_zero _ _ h
          obtain ⟨hx, hy⟩ := arrowEnds_diff dscale position
            (cairo_matrix_init affine.a affine.b affine.c affine.d affine.e affine.f)
            c.1 c.2 (g.horizontal c.1 c.2) (g.vertical c.1 c.2)
          rw [hh, hv] at hx hy
          unfold cellArrow
          rw [hh, hv]
          constructor <;> linarith
      · intro hall
        rw [arrowsOf_final, arrowsOf_map]
        have hd : drawnCells g blank i1 i2 j1 j2 = [] := by
          unfold drawnCells
          rw [List.filter_eq_nil_iff]
          intro c hc
          rw [mem_cellsOf] at hc
          simp only [isDrawn, decide_eq_true_eq, not_not]
          exact hall c.1 c.2 hc.1.1 hc.1.2 hc.2.1 hc.2.2
        rw [hd]
        rfl

/-- Witness for C5 (amended): the 1×1 grid holding the zero vector, sentinel 9,
scale 0. -/
theorem giza_vector_empty_field_witness :
    giza_vector Real.sqrt (1 / 10 ^ 10) (constGrid 1 1 (0 : ℝ) 0) 0 0 0 0 0 0 identityAffine 9
      readyCtx = some readyCtx :=
  (giza_vector_empty_field (1 / 10 ^ 10) (constGrid 1 1 (0 : ℝ) 0) 0 0 0 0 0 0 identityAffine 9
    readyCtx rfl (by decide) (by decide)
    (fun _ _ _ _ _ _ => Or.inr (by simp [constGrid]))).1 (by norm_num)

/-- C6: with valid ranges on a ready device, when `|scale|` is below the zero
epsilon and every in-range cell is blank (both components equal the sentinel) or
has magnitude below the zero epsilon, the call returns with the context exactly
as found: no error, no arrow, no buffer opened, no flush. -/
theorem giza_vector_degenerate_autoscale (eps : ℝ) (g : Grid ℝ) (i1 i2 j1 j2 : Int)
    (scale : ℝ) (position : Int) (affine : Affine ℝ) (blank : ℝ) (s : Ctx ℝ)
    (hr : s.ready = true) (hi : 0 ≤ i1 ∧ i1 ≤ i2 ∧ i2 < g.n) (hj : 0 ≤ j1 ∧ j1 ≤ j2 ∧ j2 < g.m)
    (hsc : |scale| < eps)
    (hcells : ∀ j i, j1 ≤ j → j ≤ j2 → i1 ≤ i → i ≤ i2 →
      (g.horizontal j i = blank ∧ g.vertical j i = blank) ∨
      Real.sqrt (g.horizontal j i * g.horizontal j i + g.vertical j i * g.vertical j i) < eps) :
    giza_vector Real.sqrt eps g i1 i2 j1 j2 scale position affine blank s = some s := by
  rw [giza_vector_valid Real.sqrt eps g i1 i2 j1 j2 scale position affine blank s hr hi hj]
  have he : effScale Real.sqrt eps g i1 i2 j1 j2 scale affine blank = none := by
    unfold effScale
    rw [if_pos hsc, if_pos (scanMax_small eps g blank i1 i2 j1 j2 scale hsc hcells)]
  rw [he]

/-- Witness for C6: the scenario grid scaled down to magnitude `5 · 10⁻¹¹` next to a
blank cell, with scale 0. -/
theorem giza_vector_degenerate_autoscale_witness :
    giza_vector Real.sqrt (1 / 10 ^ 10)
        (⟨2, 1, fun _ i => if i = 0 then 3 / 10 ^ 11 else 0,
          fun _ i => if i = 0 then 4 / 10 ^ 11 else 0⟩ : Grid ℝ)
        0 1 0 0 0 0 identityAffine 0 readyCtx = some readyCtx :=
  giza_vector_degenerate_autoscale (1 / 10 ^ 10) _ 0 1 0 0 0 0 identityAffine 0 readyCtx rfl
    (by decide) (by decide) (by norm_num) (by
      intro j i _ _ _ _
      by_cases h : i = 0
      · right
        simp only [h, if_true]
        rw [show (3 : ℝ) / 10 ^ 11 * (3 / 10 ^ 11) + 4 / 10 ^ 11 * (4 / 10 ^ 11)
          = (5 / 10 ^ 11) * (5 / 10 ^ 11) by norm_num, Real.sqrt_mul_self (by norm_num)]
        norm_num
      · left
        simp [h])

/-! ## Buffer nesting (C7) -/

section Buffering

variable {α : Type} [LinearOrderedField α]

/-- C7: a call on a ready device with valid ranges that reaches the drawing loop
(the scale step of lines 54-81 ends with a scale `dscale`) returns a context `t`
whose new calls are giza_begin_buffer, then giza_arrow calls only, then
giza_end_buffer followed by giza_flush_device exactly when `Sets.buf` was clear on
entry, and nothing when it was set; `Sets.buf` on return equals `Sets.buf` on entry. -/
theorem giza_vector_buffer_nesting (sqrt : α → α) (eps : α) (g : Grid α) (i1 i2 j1 j2 : Int)
    (scale : α) (position : Int) (affine : Affine α) (blank : α) (s : Ctx α) (dscale : α)
    (hr : s.ready = true) (hi : 0 ≤ i1 ∧ i1 ≤ i2 ∧ i2 < g.n) (hj : 0 ≤ j1 ∧ j1 ≤ j2 ∧ j2 < g.m)
    (hreach : findScale sqrt eps g i1 i2 j1 j2 scale affine blank = some (some dscale)) :
    ∃ (t : Ctx α) (arrows : List (Event α)),
      giza_vector sqrt eps g i1 i2 j1 j2 scale position affine blank s = some t ∧
      (∀ e ∈ arrows, e.isArrow = true) ∧
      t.trace = s.trace ++ ([Event.beginBuffer] ++ arrows ++
        (if s.buf = true then [] else [Event.endBuffer, Event.flushDevice])) ∧
      t.buf = s.buf ∧ t.ready = s.ready := by
  rw [findScale_valid sqrt eps g i1 i2 j1 j2 scale affine blank ⟨hi.1, hi.2.2⟩ ⟨hj.1, hj.2.2⟩]
    at hreach
  rw [giza_vector_valid sqrt eps g i1 i2 j1 j2 scale position affine blank s hr hi hj,
    Option.some.inj hreach]
  refine ⟨_, _, rfl, ?_, rfl, rfl, rfl⟩
  intro e he
  rw [List.mem_map] at he
  obtain ⟨c, _, rfl⟩ := he
  rfl

end Buffering

/-- Witness for C7: the scenario grid drawn with explicit scale 1 while the caller
holds a buffer; the only new calls are giza_begin_buffer and one giza_arrow. -/
theorem giza_vector_buffer_nesting_witness :
    ∃ (t : Ctx ℚ) (arrows : List (Event ℚ)),
      giza_vector (fun x : ℚ => x) (1 / 10) scenarioGrid 0 1 0 0 1 1 identityAffine 0
        ⟨true, true, []⟩ = some t ∧
      (∀ e ∈ arrows, e.isArrow = true) ∧
      t.trace = ([] : List (Event ℚ)) ++ ([Event.beginBuffer] ++ arrows ++
        (if true = true then [] else [Event.endBuffer, Event.flushDevice])) ∧
      t.buf = true ∧ t.ready = true :=
  giza_vector_buffer_nesting (fun x : ℚ => x) (1 / 10) scenarioGrid 0 1 0 0 1 1 identityAffine 0
    ⟨true, true, []⟩ 1 rfl (by decide) (by decide) (by
      unfold findScale
      rw [if_neg (by norm_num)])

/-! ## The worked scenario (C8) -/

theorem scanMax_scenarioGrid : scanMax Real.sqrt (scenarioGrid : Grid ℝ) 0 0 1 0 0 0 = 5 := by
  simp [scanMax, cellsOf_two_by_one, scanStep, scenarioGrid, sqrt_three_four]

theorem effScale_scenarioGrid (eps : ℝ) (h0 : 0 < eps) (h5 : eps ≤ 5) :
    effScale Real.sqrt eps (scenarioGrid : Grid ℝ) 0 1 0 0 0 identityAffine 0 = some (1 / 5) := by
  have h1 : ¬ ((5 : ℝ) < eps) := not_lt.mpr h5
  simp [effScale, scanMax_scenarioGrid, identityAffine, h0, h1]

/-- C8: on the grid with `n = 2`, `m = 1`, cell `(0,0) = (3, 4)` and the other cell
blank, with sentinel 0, scale 0, the identity transform, the full index range and
`position < 0`, for every zero epsilon in `(0, 5]`: the derived scale is `1/5` and
exactly one arrow is passed to giza_arrow, with tail `(-1/10, -3/10)` and head
`(1/2, 1/2)`. -/
theorem giza_vector_scenario (eps : ℝ) (h0 : 0 < eps) (h5 : eps ≤ 5) (position : Int)
    (hp : position < 0) (s : Ctx ℝ) (hr : s.ready = true) :
    findScale Real.sqrt eps (scenarioGrid : Grid ℝ) 0 1 0 0 0 identityAffine 0
      = some (some (1 / 5)) ∧
    ∃ evs : List (Event ℝ),
      giza_vector Real.sqrt eps (scenarioGrid : Grid ℝ) 0 1 0 0 0 position identityAffine 0 s
        = some { s with trace := s.trace ++ evs } ∧
      arrowsOf evs = [(-1 / 10, -3 / 10, 1 / 2, 1 / 2)] := by
  have hd : drawnCells (scenarioGrid : Grid ℝ) 0 0 1 0 0 = [(0, 0)] := by
    simp [drawnCells, cellsOf_two_by_one, isDrawn, scenarioGrid, List.filter_cons]
  constructor
  · rw [findScale_valid _ _ _ _ _ _ _ _ _ _ (by decide) (by decide),
      effScale_scenarioGrid eps h0 h5]
  · rw [giza_vector_valid _ _ _ _ _ _ _ _ _ _ _ _ hr (by decide) (by decide),
      effScale_scenarioGrid eps h0 h5]
    refine ⟨_, rfl, ?_⟩
    rw [arrowsOf_final, arrowsOf_map, hd]
    simp only [List.map_cons, List.map_nil, cellArrow, arrowEnds, cairo_matrix_init,
      cairo_matrix_transform_point, identityAffine, scenarioGrid, hp, if_true]
    norm_num

/-- Witness for C8 at the zero epsilon `10⁻¹⁰` and `position = -1`. -/
theorem giza_vector_scenario_witness :
    findScale Real.sqrt (1 / 10 ^ 10) (scenarioGrid : Grid ℝ) 0 1 0 0 0 identityAffine 0
      = some (some (1 / 5)) ∧
    ∃ evs : List (Event ℝ),
      giza_vector Real.sqrt (1 / 10 ^ 10) (scenarioGrid : Grid ℝ) 0 1 0 0 0 (-1) identityAffine 0
          readyCtx
        = some { (readyCtx : Ctx ℝ) with trace := (readyCtx : Ctx ℝ).trace ++ evs } ∧
      arrowsOf evs = [(-1 / 10, -3 / 10, 1 / 2, 1 / 2)] :=
  giza_vector_scenario (1 / 10 ^ 10) (by norm_num) (by norm_num) (-1) (by decide) readyCtx rfl

/-! ## The bounding box of giza_qtext (C9, C10) -/

section Box

variable {α : Type} [LinearOrderedField α]

theorem giza_qtext_ready (E : TextEnv α) (x y angle just : α) (text : String)
    (xbox ybox : Fin 4 → α) (s : TextCtx α) (hr : s.ready = true) :
    giza_qtext E x y angle just text xbox ybox s
      = (s,
         fun k => (E.deviceToUser Trans.GIZA_TRANS_WORLD
           ((qtextDeviceBox E x y angle just text s).1 k,
            (qtextDeviceBox E x y angle just text s).2 k)).1,
         fun k => (E.deviceToUser Trans.GIZA_TRANS_WORLD
           ((qtextDeviceBox E x y angle just text s).1 k,
            (qtextDeviceBox E x y angle just text s).2 k)).2) := by
  obtain ⟨ready, ch, trans, saved⟩ := s
  simp only at hr
  subst hr
  unfold giza_qtext qtextDeviceBox
  simp only [Bool.not_true, Bool.false_eq_true, if_false, giza_get_character_height,
    cairo_save, _giza_set_trans, cairo_user_to_device, _giza_parse_string, cairo_device_to_user,
    cairo_restore, giza_set_character_height]
  refine Prod.ext rfl (Prod.ext ?_ ?_)
  · funext k
    fin_cases k <;> rfl
  · funext k
    fin_cases k <;> rfl

/-- C9: on a ready device the arrays returned by giza_qtext are the four corners
`P0..P3` of the device-space box mapped back to world coordinates, and in device
space, with `A` the anchor mapped to device coordinates and `(width, height)` the
measured size: `A = P0 + just·(P3 − P0)`; `P3 − P0 = width·(cos θ, −sin θ)`;
`P1 − P0 = P2 − P3 = −height·(sin θ, cos θ)`. -/
theorem giza_qtext_device_box (E : TextEnv α) (x y angle just : α) (text : String)
    (xbox ybox : Fin 4 → α) (s : TextCtx α) (hr : s.ready = true) :
    (∀ k : Fin 4,
      ((giza_qtext E x y angle just text xbox ybox s).2.1 k,
        (giza_qtext E x y angle just text xbox ybox s).2.2 k)
      = E.deviceToUser Trans.GIZA_TRANS_WORLD
          ((qtextDeviceBox E x y angle just text s).1 k,
           (qtextDeviceBox E x y angle just text s).2 k)) ∧
    ((E.userToDevice Trans.GIZA_TRANS_WORLD (x, y)).1
        = (qtextDeviceBox E x y angle just text s).1 0
          + just * ((qtextDeviceBox E x y angle just text s).1 3
            - (qtextDeviceBox E x y angle just text s).1 0) ∧
      (E.userToDevice Trans.GIZA_TRANS_WORLD (x, y)).2
        = (qtextDeviceBox E x y angle just text s).2 0
          + just * ((qtextDeviceBox E x y angle just text s).2 3
            - (qtextDeviceBox E x y angle just text s).2 0)) ∧
    ((qtextDeviceBox E x y angle just text s).1 3 - (qtextDeviceBox E x y angle just text s).1 0
        = (E.parseSize text s.ch).1 * E.cos (angle * E.GIZA_DEG_TO_RAD) ∧
      (qtextDeviceBox E x y angle just text s).2 3 - (qtextDeviceBox E x y angle just text s).2 0
        = (E.parseSize text s.ch).1 * - E.sin (angle * E.GIZA_DEG_TO_RAD)) ∧
    ((qtextDeviceBox E x y angle just text s).1 1 - (qtextDeviceBox E x y angle just text s).1 0
        = - (E.parseSize text s.ch).2.1 * E.sin (angle * E.GIZA_DEG_TO_RAD) ∧
      (qtextDeviceBox E x y angle just text s).2 1 - (qtextDeviceBox E x y angle just text s).2 0
        = - (E.parseSize text s.ch).2.1 * E.cos (angle * E.GIZA_DEG_TO_RAD)) ∧
    ((qtextDeviceBox E x y angle just text s).1 2 - (qtextDeviceBox E x y angle just text s).1 3
        = - (E.parseSize text s.ch).2.1 * E.sin (angle * E.GIZA_DEG_TO_RAD) ∧
      (qtextDeviceBox E x y angle just text s).2 2 - (qtextDeviceBox E x y angle just text s).2 3
        = - (E.parseSize text s.ch).2.1 * E.cos (angle * E.GIZA_DEG_TO_RAD)) := by
  refine ⟨?_, ?_, ?_, ?_, ?_⟩
  · intro k
    rw [giza_qtext_ready E x y angle just text xbox ybox s hr]
  · simp only [qtextDeviceBox, deviceBox, Matrix.cons_val_zero, Matrix.cons_val_three,
      Matrix.cons_val_succ, Matrix.head_cons, Matrix.tail_cons]
    constructor <;> ring
  · simp only [qtextDeviceBox, deviceBox, Matrix.cons_val_zero, Matrix.cons_val_three,
      Matrix.cons_val_succ, Matrix.head_cons, Matrix.tail_cons]
    constructor <;> ring
  · simp only [qtextDeviceBox, deviceBox, Matrix.cons_val_zero, Matrix.cons_val_one,
      Matrix.head_cons]
    constructor <;> ring
  · simp only [qtextDeviceBox, deviceBox, Matrix.cons_val_two, Matrix.cons_val_three,
      Matrix.cons_val_succ, Matrix.head_cons, Matrix.tail_cons]
    constructor <;> ring

end Box

/-- Witness for C9: real cosine and sine, identity point conversions, a text
measured as `2 × 1`, anchored at `(3, 4)` with angle 30 and justification 1/2. -/
theorem giza_qtext_device_box_witness :
    (⟨true, 1, Trans.GIZA_TRANS_WORLD, []⟩ : TextCtx ℝ).ready = true ∧
    (qtextDeviceBox (⟨Real.cos, Real.sin, Real.pi / 180, fun _ p => p, fun _ p => p,
          fun _ ch => (2, 1, ch)⟩ : TextEnv ℝ) 3 4 30 (1 / 2) "giza"
          ⟨true, 1, Trans.GIZA_TRANS_WORLD, []⟩).1 3
      - (qtextDeviceBox (⟨Real.cos, Real.sin, Real.pi / 180, fun _ p => p, fun _ p => p,
          fun _ ch => (2, 1, ch)⟩ : TextEnv ℝ) 3 4 30 (1 / 2) "giza"
          ⟨true, 1, Trans.GIZA_TRANS_WORLD, []⟩).1 0
      = 2 * Real.cos (30 * (Real.pi / 180)) :=
  ⟨rfl,
   (giza_qtext_device_box (⟨Real.cos, Real.sin, Real.pi / 180, fun _ p => p, fun _ p => p,
      fun _ ch => (2, 1, ch)⟩ : TextEnv ℝ) 3 4 30 (1 / 2) "giza" ![0, 0, 0, 0] ![0, 0, 0, 0]
      ⟨true, 1, Trans.GIZA_TRANS_WORLD, []⟩ rfl).2.2.1.1⟩

theorem extent_of_pairs (p q : ℝ) (hqp : q ≤ p) : extent ![p, q, q, p] = p - q := by
  simp [extent, max_eq_left hqp, min_eq_right hqp, max_eq_right hqp, min_eq_left hqp]

theorem extent_of_halves (p q : ℝ) (hqp : q ≤ p) : extent ![p, p, q, q] = p - q := by
  simp [extent, max_eq_left hqp, min_eq_right hqp]

/-- C10: with real cosine and sine, `GIZA_DEG_TO_RAD = π/180`, identity world/device
point conversions and a measured `width ≥ 0`, `height ≥ 0`, on a ready device:
at angle 0 and `just = 0` the array xbox is `[x, x, x+width, x+width]`; at angle 0 and
`just = 1` it is `[x−width, x−width, x, x]`, each entry being `2x` minus the `just = 0`
entry of the opposite corner, with ybox the same as for `just = 0`; at angle 90, for
every `just`, the extent of xbox is `height` and the extent of ybox is `width`. -/
theorem giza_qtext_special_angles (E : TextEnv ℝ) (x y : ℝ) (text : String)
    (xbox ybox : Fin 4 → ℝ) (s : TextCtx ℝ) (hr : s.ready = true)
    (hcos : E.cos = Real.cos) (hsin : E.sin = Real.sin)
    (hdeg : E.GIZA_DEG_TO_RAD = Real.pi / 180)
    (hud : ∀ p, E.userToDevice Trans.GIZA_TRANS_WORLD p = p)
    (hdu : ∀ p, E.deviceToUser Trans.GIZA_TRANS_WORLD p = p)
    (hw : 0 ≤ (E.parseSize text s.ch).1) (hh : 0 ≤ (E.parseSize text s.ch).2.1) :
    (giza_qtext E x y 0 0 text xbox ybox s).2.1
      = ![x, x, x + (E.parseSize text s.ch).1, x + (E.parseSize text s.ch).1] ∧
    (giza_qtext E x y 0 1 text xbox ybox s).2.1
      = ![x - (E.parseSize text s.ch).1, x - (E.parseSize text s.ch).1, x, x] ∧
    (∀ k : Fin 4, (giza_qtext E x y 0 1 text xbox ybox s).2.1 k
      = 2 * x - (giza_qtext E x y 0 0 text xbox ybox s).2.1 (k + 2)) ∧
    (∀ k : Fin 4, (giza_qtext E x y 0 1 text xbox ybox s).2.2 k
      = (giza_qtext E x y 0 0 text xbox ybox s).2.2 k) ∧
    (∀ just : ℝ,
      extent (giza_qtext E x y 90 just text xbox ybox s).2.1 = (E.parseSize text s.ch).2.1 ∧
      extent (giza_qtext E x y 90 just text xbox ybox s).2.2 = (E.parseSize text s.ch).1) := by
  have h90 : (90 : ℝ) * (Real.pi / 180) = Real.pi / 2 := by ring
  have hx0 : (giza_qtext E x y 0 0 text xbox ybox s).2.1
      = ![x, x, x + (E.parseSize text s.ch).1, x + (E.parseSize text s.ch).1] := by
    rw [giza_qtext_ready E x y 0 0 text xbox ybox s hr]
    funext k
    fin_cases k <;> simp [hdu, hud, qtextDeviceBox, deviceBox, hcos, hsin]
  have hx1 : (giza_qtext E x y 0 1 text xbox ybox s).2.1
      = ![x - (E.parseSize text s.ch).1, x - (E.parseSize text s.ch).1, x, x] := by
    rw [giza_qtext_ready E x y 0 1 text xbox ybox s hr]
    funext k
    fin_cases k <;> simp [hdu, hud, qtextDeviceBox, deviceBox, hcos, hsin]
  refine ⟨hx0, hx1, ?_, ?_, ?_⟩
  · intro k
    rw [hx0, hx1]
    fin_cases k <;> simp <;> ring
  · intro k
    rw [giza_qtext_ready E x y 0 1 text xbox ybox s hr,
      giza_qtext_ready E x y 0 0 text xbox ybox s hr]
    fin_cases k <;> simp [hdu, hud, qtextDeviceBox, deviceBox, hcos, hsin]
  · intro just
    rw [giza_qtext_ready E x y 90 just text xbox ybox s hr]
    have hbx : (fun k : Fin 4 => (E.deviceToUser Trans.GIZA_TRANS_WORLD
          ((qtextDeviceBox E x y 90 just text s).1 k,
            (qtextDeviceBox E x y 90 just text s).2 k)).1)
        = ![x, x - (E.parseSize text s.ch).2.1, x - (E.parseSize text s.ch).2.1, x] := by
      funext k
      fin_cases k <;>
        simp [hdu, hud, qtextDeviceBox, deviceBox, hcos, hsin, hdeg, h90]
    have hby : (fun k : Fin 4 => (E.deviceToUser Trans.GIZA_TRANS_WORLD
          ((qtextDeviceBox E x y 90 just text s).1 k,
            (qtextDeviceBox E x y 90 just text s).2 k)).2)
        = ![y + (E.parseSize text s.ch).1 * just, y + (E.parseSize text s.ch).1 * just,
            y - (E.parseSize text s.ch).1 * (1 - just),
            y - (E.parseSize text s.ch).1 * (1 - just)] := by
      funext k
      fin_cases k <;>
        simp [hdu, hud, qtextDeviceBox, deviceBox, hcos, hsin, hdeg, h90]
    simp only [hbx, hby]
    constructor
    · rw [extent_of_pairs _ _ (by linarith)]
      ring
    · rw [extent_of_halves _ _ (by nlinarith)]
      ring

/-- Witness for C10: a text measured as `2 × 1`, anchored at `(3, 4)`. -/
theorem giza_qtext_special_angles_witness :
    (giza_qtext (⟨Real.cos, Real.sin, Real.pi / 180, fun _ p => p, fun _ p => p,
        fun _ ch => (2, 1, ch)⟩ : TextEnv ℝ) 3 4 0 0 "giza" ![0, 0, 0, 0] ![0, 0, 0, 0]
        ⟨true, 1, Trans.GIZA_TRANS_WORLD, []⟩).2.1
      = ![3, 3, 3 + 2, 3 + 2] ∧
    extent (giza_qtext (⟨Real.cos, Real.sin, Real.pi / 180, fun _ p => p, fun _ p => p,
        fun _ ch => (2, 1, ch)⟩ : TextEnv ℝ) 3 4 90 (1 / 3) "giza" ![0, 0, 0, 0] ![0, 0, 0, 0]
        ⟨true, 1, Trans.GIZA_TRANS_WORLD, []⟩).2.1 = 1 :=
  ⟨(giza_qtext_special_angles (⟨Real.cos, Real.sin, Real.pi / 180, fun _ p => p, fun _ p => p,
      fun _ ch => (2, 1, ch)⟩ : TextEnv ℝ) 3 4 "giza" ![0, 0, 0, 0] ![0, 0, 0, 0]
      ⟨true, 1, Trans.GIZA_TRANS_WORLD, []⟩ rfl rfl rfl rfl (fun _ => rfl) (fun _ => rfl)
      (by norm_num) (by norm_num)).1,
   ((giza_qtext_special_angles (⟨Real.cos, Real.sin, Real.pi / 180, fun _ p => p, fun _ p => p,
      fun _ ch => (2, 1, ch)⟩ : TextEnv ℝ) 3 4 "giza" ![0, 0, 0, 0] ![0, 0, 0, 0]
      ⟨true, 1, Trans.GIZA_TRANS_WORLD, []⟩ rfl rfl rfl rfl (fun _ => rfl) (fun _ => rfl)
      (by norm_num) (by norm_num)).2.2.2.2 (1 / 3)).1⟩

/-! ## Extents of giza_qtextlen (C11, C12) -/

section Extent

variable {α : Type} [LinearOrderedField α]

theorem convertUnits_restore (U : Units) (Dev : Device α) (u2dDistance : Trans → α × α → α × α)
    (units : Int) (xlen ylen : α) (s : TextCtx α) (t : Trans) (rest : List Trans)
    (hs : s.saved = t :: rest) :
    cairo_restore (convertUnits U Dev u2dDistance units xlen ylen s).1
      = { s with trans := t, saved := rest } := by
  unfold convertUnits
  split_ifs <;> simp [cairo_restore, _giza_set_trans, hs]

theorem giza_qtextlen_ctx (E : TextEnv α) (U : Units) (Dev : Device α)
    (u2dDistance : Trans → α × α → α × α) (units : Int) (text : String) (s : TextCtx α) :
    (giza_qtextlen E U Dev u2dDistance units text s).1 = s := by
  unfold giza_qtextlen
  cases hr : s.ready
  · simp
  · simp only [Bool.not_true, Bool.false_eq_true, if_false]
    rw [convertUnits_restore U Dev u2dDistance units _ _ _ s.trans s.saved rfl]
    simp [giza_set_character_height, giza_get_character_height, _giza_parse_string,
      _giza_set_trans, cairo_save]

theorem giza_qtextlen_ready (E : TextEnv α) (U : Units) (Dev : Device α)
    (u2dDistance : Trans → α × α → α × α) (units : Int) (text : String) (s : TextCtx α)
    (hr : s.ready = true) :
    (giza_qtextlen E U Dev u2dDistance units text s).2
      = (convertUnits U Dev u2dDistance units (E.parseSize text s.ch).1
          (E.parseSize text s.ch).2.1
          (_giza_parse_string E text
            (_giza_set_trans Trans.GIZA_TRANS_IDEN (cairo_save s))).2).2 := by
  unfold giza_qtextlen
  simp [hr, _giza_parse_string, _giza_set_trans, cairo_save]

/-- C11: on a ready device, with `(w, h)` the raw measurement of the text and the
six unit constants pairwise different, giza_qtextlen returns, without a warning,
`(w / Dev.width, h / Dev.height)` for NORMALIZED, `(w·deviceUnitsPerPixel,
h·deviceUnitsPerPixel)` for PIXELS, `(w, h)` for DEVICE, `(w·deviceUnitsPermm,
h·deviceUnitsPermm)` for MM and `(w·deviceUnitsPermm/25.4, h·deviceUnitsPermm/25.4)`
for INCHES; for a selector that is none of the six units it emits one warning and
returns the lengths it returns for NORMALIZED. -/
theorem giza_qtextlen_unit_table (E : TextEnv α) (U : Units) (Dev : Device α)
    (u2dDistance : Trans → α × α → α × α) (units : Int) (text : String) (s : TextCtx α)
    (hr : s.ready = true) (hU : U.distinct) :
    (units = U.GIZA_UNITS_NORMALIZED →
      (giza_qtextlen E U Dev u2dDistance units text s).2
        = ((E.parseSize text s.ch).1 / Dev.width, (E.parseSize text s.ch).2.1 / Dev.height,
            [])) ∧
    (units = U.GIZA_UNITS_PIXELS →
      (giza_qtextlen E U Dev u2dDistance units text s).2
        = ((E.parseSize text s.ch).1 * Dev.deviceUnitsPerPixel,
            (E.parseSize text s.ch).2.1 * Dev.deviceUnitsPerPixel, [])) ∧
    (units = U.GIZA_UNITS_DEVICE →
      (giza_qtextlen E U Dev u2dDistance units text s).2
        = ((E.parseSize text s.ch).1, (E.parseSize text s.ch).2.1, [])) ∧
    (units = U.GIZA_UNITS_MM →
      (giza_qtextlen E U Dev u2dDistance units text s).2
        = ((E.parseSize text s.ch).1 * Dev.deviceUnitsPermm,
            (E.parseSize text s.ch).2.1 * Dev.deviceUnitsPermm, [])) ∧
    (units = U.GIZA_UNITS_INCHES →
      (giza_qtextlen E U Dev u2dDistance units text s).2
        = ((E.parseSize text s.ch).1 * Dev.deviceUnitsPermm / (254 / 10),
            (E.parseSize text s.ch).2.1 * Dev.deviceUnitsPermm / (254 / 10), [])) ∧
    (units ∉ [U.GIZA_UNITS_NORMALIZED, U.GIZA_UNITS_PIXELS, U.GIZA_UNITS_DEVICE,
        U.GIZA_UNITS_MM, U.GIZA_UNITS_INCHES, U.GIZA_UNITS_WORLD] →
      (giza_qtextlen E U Dev u2dDistance units text s).2.2.2
        = [⟨"giza_get_viewport", "Invalid units, using normalised device units."⟩] ∧
      (giza_qtextlen E U Dev u2dDistance units text s).2.1
        = (giza_qtextlen E U Dev u2dDistance U.GIZA_UNITS_NORMALIZED text s).2.1 ∧
      (giza_qtextlen E U Dev u2dDistance units text s).2.2.1
        = (giza_qtextlen E U Dev u2dDistance U.GIZA_UNITS_NORMALIZED text s).2.2.1) := by
  simp only [Units.distinct, List.nodup_cons, List.mem_cons, List.mem_singleton, not_or,
    List.not_mem_nil, not_false_eq_true, List.nodup_nil, and_true] at hU
  obtain ⟨⟨h12, h13, h14, h15, h16⟩, ⟨h23, h24, h25, h26⟩, ⟨h34, h35, h36⟩, ⟨h45, h46⟩, h56⟩ := hU
  refine ⟨?_, ?_, ?_, ?_, ?_, ?_⟩
  · intro h
    subst h
    rw [giza_qtextlen_ready _ _ _ _ _ _ _ hr]
    simp [convertUnits]
  · intro h
    subst h
    rw [giza_qtextlen_ready _ _ _ _ _ _ _ hr]
    simp [convertUnits, Ne.symm h12]
  · intro h
    subst h
    rw [giza_qtextlen_ready _ _ _ _ _ _ _ hr]
    simp [convertUnits, Ne.symm h13, Ne.symm h23]
  · intro h
    subst h
    rw [giza_qtextlen_ready _ _ _ _ _ _ _ hr]
    simp [convertUnits, Ne.symm h14, Ne.symm h24, Ne.symm h34]
  · intro h
    subst h
    rw [giza_qtextlen_ready _ _ _ _ _ _ _ hr]
    simp [convertUnits, Ne.symm h15, Ne.symm h25, Ne.symm h35, Ne.symm h45]
  · intro h
    simp only [List.mem_cons, List.mem_singleton, not_or, List.not_mem_nil,
      not_false_eq_true, and_true] at h
    obtain ⟨n1, n2, n3, n4, n5, n6⟩ := h
    rw [giza_qtextlen_ready _ _ _ _ _ _ _ hr, giza_qtextlen_ready _ _ _ _ _ _ _ hr]
    simp [convertUnits, n1, n2, n3, n4, n5, n6]

end Extent

/-- Witness for C11: the unit constants 0..5, a 640×480 device and a text measured
as `64 × 12`, queried in inches. -/
theorem giza_qtextlen_unit_table_witness :
    (⟨true, 1, Trans.GIZA_TRANS_WORLD, []⟩ : TextCtx ℚ).ready = true ∧
    (⟨0, 3, 5, 2, 1, 4⟩ : Units).distinct ∧
    (giza_qtextlen (⟨fun x => x, fun x => x, 1, fun _ p => p, fun _ p => p,
        fun _ ch => (64, 12, ch / 2)⟩ : TextEnv ℚ) ⟨0, 3, 5, 2, 1, 4⟩ ⟨640, 480, 1, 4⟩
        (fun _ p => p) 1 "giza" ⟨true, 1, Trans.GIZA_TRANS_WORLD, []⟩).2
      = ((64 : ℚ) * 4 / (254 / 10), (12 : ℚ) * 4 / (254 / 10), []) :=
  ⟨rfl, by unfold Units.distinct; decide,
   (giza_qtextlen_unit_table (⟨fun x => x, fun x => x, 1, fun _ p => p, fun _ p => p,
      fun _ ch => (64, 12, ch / 2)⟩ : TextEnv ℚ) ⟨0, 3, 5, 2, 1, 4⟩ ⟨640, 480, 1, 4⟩
      (fun _ p => p) 1 "giza" ⟨true, 1, Trans.GIZA_TRANS_WORLD, []⟩ rfl
      (by unfold Units.distinct; decide)).2.2.2.2.1
      rfl⟩

section Extent2

variable {α : Type} [LinearOrderedField α]

theorem giza_qtextlen_world (E : TextEnv α) (U : Units) (Dev : Device α)
    (u2dDistance : Trans → α × α → α × α) (text : String) (s : TextCtx α)
    (hr : s.ready = true) (hU : U.distinct) :
    (giza_qtextlen E U Dev u2dDistance U.GIZA_UNITS_WORLD text s).2
      = ((u2dDistance Trans.GIZA_TRANS_NORM
            ((E.parseSize text s.ch).1, (E.parseSize text s.ch).2.1)).1,
         (u2dDistance Trans.GIZA_TRANS_NORM
            ((E.parseSize text s.ch).1, (E.parseSize text s.ch).2.1)).2, []) := by
  simp only [Units.distinct, List.nodup_cons, List.mem_cons, List.mem_singleton, not_or,
    List.not_mem_nil, not_false_eq_true, List.nodup_nil, and_true] at hU
  obtain ⟨⟨_, _, _, _, h16⟩, ⟨_, _, _, h26⟩, ⟨_, _, h36⟩, ⟨_, h46⟩, h56⟩ := hU
  rw [giza_qtextlen_ready _ _ _ _ _ _ _ hr]
  simp [convertUnits, Ne.symm h16, Ne.symm h26, Ne.symm h36, Ne.symm h46, Ne.symm h56,
    cairo_user_to_device_distance, _giza_set_trans]

end Extent2

/-- C12, evaluated where one world unit is ten device units, the normalised
transform scales by 100 and the text measures `20 × 10` device units: the device to
world distance conversion of the measurement is `(2, 1)`, which the world to device
conversion maps back to the DEVICE result `(20, 10)`; giza_qtextlen installs the
normalised transform and applies the user to device conversion, returning
`(2000, 1000)` for WORLD, which the world to device conversion maps to
`(20000, 10000)`. -/
theorem giza_qtextlen_world_not_device_to_world :
    (giza_qtextlen (sampleTextEnv : TextEnv ℚ) sampleUnits sampleDevice
        sampleUserToDeviceDistance sampleUnits.GIZA_UNITS_DEVICE "giza"
        ⟨true, 1, Trans.GIZA_TRANS_WORLD, []⟩).2 = (20, 10, []) ∧
    sampleDeviceToUserDistance Trans.GIZA_TRANS_WORLD ((20 : ℚ), (10 : ℚ)) = (2, 1) ∧
    sampleUserToDeviceDistance Trans.GIZA_TRANS_WORLD ((2 : ℚ), (1 : ℚ)) = (20, 10) ∧
    (giza_qtextlen (sampleTextEnv : TextEnv ℚ) sampleUnits sampleDevice
        sampleUserToDeviceDistance sampleUnits.GIZA_UNITS_WORLD "giza"
        ⟨true, 1, Trans.GIZA_TRANS_WORLD, []⟩).2 = (2000, 1000, []) ∧
    sampleUserToDeviceDistance Trans.GIZA_TRANS_WORLD ((2000 : ℚ), (1000 : ℚ))
      = (20000, 10000) := by
  have hU : sampleUnits.distinct := by unfold Units.distinct sampleUnits; decide
  refine ⟨?_, ?_, ?_, ?_, ?_⟩
  · rw [giza_qtextlen_ready _ _ _ _ _ _ _ rfl]
    simp [convertUnits, sampleUnits, sampleTextEnv]
  · simp [sampleDeviceToUserDistance]
    norm_num
  · simp [sampleUserToDeviceDistance]
    norm_num
  · rw [giza_qtextlen_world _ _ _ _ _ _ rfl hU]
    simp [sampleTextEnv, sampleUserToDeviceDistance]
    norm_num
  · simp [sampleUserToDeviceDistance]
    norm_num

/-! ## Device not ready, character height (C13, C14, C15) -/

section NotReady

variable {α : Type} [LinearOrderedField α]

theorem giza_qtext_not_ready (E : TextEnv α) (x y angle just : α) (text : String)
    (xbox ybox : Fin 4 → α) (s : TextCtx α) (hr : s.ready = false) :
    giza_qtext E x y angle just text xbox ybox s = (s, xbox, ybox) := by
  simp [giza_qtext, hr]

theorem giza_qtext_float_not_ready (E : TextEnv α) (toFloat : α → α) (xboxd yboxd : Fin 4 → α)
    (x y angle just : α) (text : String) (s : TextCtx α) (hr : s.ready = false) :
    giza_qtext_float E toFloat xboxd yboxd x y angle just text s
      = (s, ![toFloat (xboxd 0), toFloat (xboxd 1), toFloat (xboxd 2), toFloat (xboxd 3)],
          ![toFloat (yboxd 0), toFloat (yboxd 1), toFloat (yboxd 2), toFloat (yboxd 3)]) := by
  simp [giza_qtext_float, giza_qtext_not_ready E x y angle just text xboxd yboxd s hr]

end NotReady

/-- C13, evaluated on a device that is not ready: giza_qtext returns the caller's
arrays `{1, 2, 3, 4}` and `{5, 6, 7, 8}` as they were; giza_qtext_float, whose locals
`xboxd`, `yboxd` happen to hold zeros, assigns those zeros to all eight elements of
the caller's arrays, whatever they held. -/
theorem giza_qtext_float_overwrites_when_not_ready :
    giza_qtext (sampleTextEnv : TextEnv ℚ) 3 4 30 (1 / 2) "giza" ![1, 2, 3, 4] ![5, 6, 7, 8]
        ⟨false, 1, Trans.GIZA_TRANS_WORLD, []⟩
      = (⟨false, 1, Trans.GIZA_TRANS_WORLD, []⟩, ![1, 2, 3, 4], ![5, 6, 7, 8]) ∧
    giza_qtext_float (sampleTextEnv : TextEnv ℚ) (fun v => v) ![0, 0, 0, 0] ![0, 0, 0, 0]
        3 4 30 (1 / 2) "giza" ⟨false, 1, Trans.GIZA_TRANS_WORLD, []⟩
      = (⟨false, 1, Trans.GIZA_TRANS_WORLD, []⟩, ![0, 0, 0, 0], ![0, 0, 0, 0]) ∧
    (![0, 0, 0, 0] : Fin 4 → ℚ) 0 ≠ (![1, 2, 3, 4] : Fin 4 → ℚ) 0 := by
  refine ⟨giza_qtext_not_ready _ _ _ _ _ _ _ _ _ rfl, ?_, by simp⟩
  rw [giza_qtext_float_not_ready _ _ _ _ _ _ _ _ _ _ rfl]
  simp

section NotReady2

variable {α : Type} [LinearOrderedField α]

/-- C14: on a device that is not ready, for every unit selector and text,
giza_qtextlen returns `xlen = 0`, `ylen = 0`, no warning and the context as found,
whatever the size pass of the layout engine would do; so does giza_qtextlen_float,
the rounding to `float` keeping 0. -/
theorem giza_qtextlen_not_ready (E : TextEnv α) (toFloat : α → α) (U : Units) (Dev : Device α)
    (u2dDistance : Trans → α × α → α × α) (units : Int) (text : String) (s : TextCtx α)
    (hr : s.ready = false) (h0 : toFloat 0 = 0) :
    giza_qtextlen E U Dev u2dDistance units text s = (s, 0, 0, []) ∧
    giza_qtextlen_float E toFloat U Dev u2dDistance units text s = (s, 0, 0, []) := by
  have h1 : giza_qtextlen E U Dev u2dDistance units text s = (s, 0, 0, []) := by
    simp [giza_qtextlen, hr]
  exact ⟨h1, by simp [giza_qtextlen_float, h1, h0]⟩

/-- C15: for every input, ready or not and whatever the unit selector, the character
height of the context returned by giza_qtext and of the context returned by
giza_qtextlen is the character height on entry, whatever character height the size
pass of the layout engine leaves behind. -/
theorem character_height_preserved (E : TextEnv α) (U : Units) (Dev : Device α)
    (u2dDistance : Trans → α × α → α × α) (units : Int) (x y angle just : α) (text : String)
    (xbox ybox : Fin 4 → α) (s : TextCtx α) :
    (giza_qtext E x y angle just text xbox ybox s).1.ch = s.ch ∧
    (giza_qtextlen E U Dev u2dDistance units text s).1.ch = s.ch := by
  constructor
  · cases hr : s.ready
    · rw [giza_qtext_not_ready E x y angle just text xbox ybox s hr]
    · rw [giza_qtext_ready E x y angle just text xbox ybox s hr]
  · rw [giza_qtextlen_ctx]

end NotReady2

/-- Witness for C14: an unrecognised unit selector on a device that is not ready. -/
theorem giza_qtextlen_not_ready_witness :
    giza_qtextlen (sampleTextEnv : TextEnv ℚ) sampleUnits sampleDevice
        sampleUserToDeviceDistance 77 "giza" ⟨false, 1, Trans.GIZA_TRANS_WORLD, []⟩
      = (⟨false, 1, Trans.GIZA_TRANS_WORLD, []⟩, 0, 0, []) ∧
    giza_qtextlen_float (sampleTextEnv : TextEnv ℚ) (fun v => v) sampleUnits sampleDevice
        sampleUserToDeviceDistance 77 "giza" ⟨false, 1, Trans.GIZA_TRANS_WORLD, []⟩
      = (⟨false, 1, Trans.GIZA_TRANS_WORLD, []⟩, 0, 0, []) :=
  giza_qtextlen_not_ready (sampleTextEnv : TextEnv ℚ) (fun v => v) sampleUnits sampleDevice
    sampleUserToDeviceDistance 77 "giza" ⟨false, 1, Trans.GIZA_TRANS_WORLD, []⟩ rfl rfl

/-! ## The sequence of arrows (C16) -/

theorem intRange_pairwise (k : Nat) (lo : Int) : (intRange k lo).Pairwise (fun a b => a < b) := by
  induction k generalizing lo with
  | zero => simp [intRange]
  | succ k ih =>
    rw [intRange, List.pairwise_cons]
    refine ⟨?_, ih (lo + 1)⟩
    intro a ha
    rw [mem_intRange] at ha
    omega

theorem cellsOf_pairwise (i1 i2 j1 j2 : Int) :
    (cellsOf i1 i2 j1 j2).Pairwise
      (fun c d : Int × Int => c.1 < d.1 ∨ (c.1 = d.1 ∧ c.2 < d.2)) := by
  unfold cellsOf
  rw [List.pairwise_flatMap]
  constructor
  · intro j _
    rw [List.pairwise_map]
    exact (intRange_pairwise _ i1).imp (fun h => Or.inr ⟨rfl, h⟩)
  · refine (intRange_pairwise _ j1).imp ?_
    intro j j' hlt x hx y hy
    rw [List.mem_map] at hx hy
    obtain ⟨_, _, rfl⟩ := hx
    obtain ⟨_, _, rfl⟩ := hy
    exact Or.inl hlt

section Sequence

variable {α : Type} [LinearOrderedField α]

theorem mem_drawnCells (g : Grid α) (blank : α) (i1 i2 j1 j2 : Int) (c : Int × Int) :
    c ∈ drawnCells g blank i1 i2 j1 j2 ↔
      ((j1 ≤ c.1 ∧ c.1 ≤ j2) ∧ (i1 ≤ c.2 ∧ c.2 ≤ i2)) ∧
      ¬ (g.horizontal c.1 c.2 = blank ∧ g.vertical c.1 c.2 = blank) := by
  unfold drawnCells
  rw [List.mem_filter, mem_cellsOf]
  simp only [isDrawn, decide_eq_true_eq]

/-- C16: a call on a ready device with valid ranges that reaches the drawing loop
with the scale `dscale` passes to giza_arrow, in this order, the arrow computed from
the stored values `(horizontal[j][i], vertical[j][i])` of each cell of a list of
cells; a cell `(j, i)` is in that list exactly when it is in range and not both of
its components equal the sentinel (so a cell with exactly one component equal to
the sentinel is drawn, a cell with both never); the list is strictly increasing in
`j` and, within a row, in `i`, so no cell occurs twice. -/
theorem giza_vector_arrow_sequence (sqrt : α → α) (eps : α) (g : Grid α) (i1 i2 j1 j2 : Int)
    (scale : α) (position : Int) (affine : Affine α) (blank : α) (s : Ctx α) (dscale : α)
    (hr : s.ready = true) (hi : 0 ≤ i1 ∧ i1 ≤ i2 ∧ i2 < g.n) (hj : 0 ≤ j1 ∧ j1 ≤ j2 ∧ j2 < g.m)
    (hreach : findScale sqrt eps g i1 i2 j1 j2 scale affine blank = some (some dscale)) :
    ∃ (evs : List (Event α)) (cs : List (Int × Int)),
      giza_vector sqrt eps g i1 i2 j1 j2 scale position affine blank s
        = some { s with trace := s.trace ++ evs } ∧
      arrowsOf evs = cs.map (fun c =>
        arrowEnds dscale position
          (cairo_matrix_init affine.a affine.b affine.c affine.d affine.e affine.f)
          c.1 c.2 (g.horizontal c.1 c.2) (g.vertical c.1 c.2)) ∧
      (∀ c : Int × Int, c ∈ cs ↔
        ((j1 ≤ c.1 ∧ c.1 ≤ j2) ∧ (i1 ≤ c.2 ∧ c.2 ≤ i2)) ∧
        ¬ (g.horizontal c.1 c.2 = blank ∧ g.vertical c.1 c.2 = blank)) ∧
      cs.Pairwise (fun c d : Int × Int => c.1 < d.1 ∨ (c.1 = d.1 ∧ c.2 < d.2)) := by
  rw [findScale_valid sqrt eps g i1 i2 j1 j2 scale affine blank ⟨hi.1, hi.2.2⟩ ⟨hj.1, hj.2.2⟩]
    at hreach
  rw [giza_vector_valid sqrt eps g i1 i2 j1 j2 scale position affine blank s hr hi hj,
    Option.some.inj hreach]
  refine ⟨_, drawnCells g blank i1 i2 j1 j2, rfl, ?_, mem_drawnCells g blank i1 i2 j1 j2, ?_⟩
  · rw [arrowsOf_final, arrowsOf_map]
    rfl
  · exact (cellsOf_pairwise i1 i2 j1 j2).filter _

end Sequence

/-- Witness for C16: the grid `(3, 4), (0, 12)` with sentinel 0 and explicit scale 1;
the cell `(0, 12)`, with one component equal to the sentinel, is in the list. -/
theorem giza_vector_arrow_sequence_witness :
    ∃ (evs : List (Event ℚ)) (cs : List (Int × Int)),
      giza_vector (fun x : ℚ => x) (1 / 10) mixedGrid 0 1 0 0 1 1 identityAffine 0 readyCtx
        = some { (readyCtx : Ctx ℚ) with trace := (readyCtx : Ctx ℚ).trace ++ evs } ∧
      arrowsOf evs = cs.map (fun c =>
        arrowEnds 1 1
          (cairo_matrix_init (identityAffine : Affine ℚ).a (identityAffine : Affine ℚ).b
            (identityAffine : Affine ℚ).c (identityAffine : Affine ℚ).d
            (identityAffine : Affine ℚ).e (identityAffine : Affine ℚ).f)
          c.1 c.2 ((mixedGrid : Grid ℚ).horizontal c.1 c.2)
          ((mixedGrid : Grid ℚ).vertical c.1 c.2)) ∧
      (∀ c : Int × Int, c ∈ cs ↔
        (((0 : Int) ≤ c.1 ∧ c.1 ≤ 0) ∧ ((0 : Int) ≤ c.2 ∧ c.2 ≤ 1)) ∧
        ¬ ((mixedGrid : Grid ℚ).horizontal c.1 c.2 = 0 ∧
            (mixedGrid : Grid ℚ).vertical c.1 c.2 = 0)) ∧
      cs.Pairwise (fun c d : Int × Int => c.1 < d.1 ∨ (c.1 = d.1 ∧ c.2 < d.2)) :=
  giza_vector_arrow_sequence (fun x : ℚ => x) (1 / 10) mixedGrid 0 1 0 0 1 1 identityAffine 0
    readyCtx 1 rfl (by decide) (by decide) (by
      unfold findScale
      rw [if_neg (by norm_num)])

/-! ## giza_vector_float (C17, C18) -/

section FloatVariant

variable {α : Type} [LinearOrderedField α]

theorem drawLoopFloat_valid (g : Grid α) (dscale : α) (position : Int) (affine : Affine α)
    (blank : α) (i1 i2 j1 j2 : Int) (s : Ctx α) (hi : 0 ≤ i1 ∧ i2 < g.n)
    (hj : 0 ≤ j1 ∧ j2 < g.m) :
    forRange j1 j2 (fun j => forRange i1 i2 (fun i => drawCellFloat g dscale position
        (cairo_matrix_init affine.a affine.b affine.c affine.d affine.e affine.f) blank j i)) s
      = some (emit ((drawnCells g blank i1 i2 j1 j2).map
          (fun c => arrowEvent (arrowEndsFloat dscale position
            (cairo_matrix_init affine.a affine.b affine.c affine.d affine.e affine.f)
            c.1 c.2 (g.horizontal c.1 c.2) (g.vertical c.1 c.2)))) s) := by
  unfold drawnCells
  rw [← emit_foldl]
  apply nested_some
  intro j i h1 h2 h3 h4 t
  have hH := readH_inBounds g j i ⟨by omega, by omega⟩ ⟨by omega, by omega⟩
  have hV := readV_inBounds g j i ⟨by omega, by omega⟩ ⟨by omega, by omega⟩
  simp only [drawCellFloat, hH, hV, Option.bind_eq_bind, Option.some_bind, Option.pure_def,
    isDrawn, arrowEvent, emit, giza_arrow]
  by_cases hb : g.horizontal j i = blank ∧ g.vertical j i = blank
  · simp [hb.1, hb.2]
  · simp only [decide_eq_true_eq, if_pos hb]

theorem findScaleFloat_valid (sqrt : α → α) (epsF epsD : α) (g : Grid α) (i1 i2 j1 j2 : Int)
    (scale : α) (affine : Affine α) (blank : α) (hi : 0 ≤ i1 ∧ i2 < g.n)
    (hj : 0 ≤ j1 ∧ j2 < g.m) :
    ∃ r, findScaleFloat sqrt epsF epsD g i1 i2 j1 j2 scale affine blank = some r := by
  unfold findScaleFloat
  simp only [scanLoop_valid sqrt g blank i1 i2 j1 j2 scale hi hj]
  split_ifs <;> exact ⟨_, rfl⟩

theorem giza_vector_float_valid (sqrt : α → α) (epsF epsD : α) (g : Grid α) (i1 i2 j1 j2 : Int)
    (scale : α) (position : Int) (affine : Affine α) (blank : α) (s : Ctx α)
    (hr : s.ready = true) (hi : 0 ≤ i1 ∧ i1 ≤ i2 ∧ i2 < g.n) (hj : 0 ≤ j1 ∧ j1 ≤ j2 ∧ j2 < g.m) :
    ∃ r, findScaleFloat sqrt epsF epsD g i1 i2 j1 j2 scale affine blank = some r ∧
      giza_vector_float sqrt epsF epsD g i1 i2 j1 j2 scale position affine blank s
        = some (match r with
          | none => s
          | some dscale => finalCtx s ((drawnCells g blank i1 i2 j1 j2).map
              (fun c => arrowEvent (arrowEndsFloat dscale position
                (cairo_matrix_init affine.a affine.b affine.c affine.d affine.e affine.f)
                c.1 c.2 (g.horizontal c.1 c.2) (g.vertical c.1 c.2))))) := by
  have h1 : ¬ (i1 < 0 ∨ i2 ≥ g.n ∨ i1 > i2) := by omega
  have h2 : ¬ (j1 < 0 ∨ j2 ≥ g.m ∨ j1 > j2) := by omega
  obtain ⟨r, hrs⟩ := findScaleFloat_valid sqrt epsF epsD g i1 i2 j1 j2 scale affine blank
    ⟨hi.1, hi.2.2⟩ ⟨hj.1, hj.2.2⟩
  refine ⟨r, hrs, ?_⟩
  unfold giza_vector_float
  simp only [_giza_check_device_ready, hr, Bool.not_true, if_neg h1, if_neg h2, hrs]
  cases r with
  | none => simp
  | some dscale =>
    simp only [drawLoopFloat_valid g dscale position affine blank i1 i2 j1 j2 _
      ⟨hi.1, hi.2.2⟩ ⟨hj.1, hj.2.2⟩]
    simp [closeBuffer_begin]

theorem arrowEndsFloat_eq_of_identity (dscale : α) (position : Int) (mat : cairo_matrix_t α)
    (j i : Int) (h v : α) (hxx : mat.xx = 1) (hyx : mat.yx = 0) (hxy : mat.xy = 0)
    (hyy : mat.yy = 1) :
    arrowEndsFloat dscale position mat j i h v = arrowEnds dscale position mat j i h v := by
  unfold arrowEndsFloat arrowEnds cairo_matrix_transform_point
  rw [hxx, hyx, hxy, hyy]
  by_cases h1 : position < 0
  · simp only [h1, if_true]
    refine Prod.ext ?_ (Prod.ext ?_ (Prod.ext ?_ ?_)) <;> simp <;> ring
  · by_cases h2 : position = 0
    · subst h2
      simp only [lt_irrefl, if_true, if_false]
      refine Prod.ext ?_ (Prod.ext ?_ (Prod.ext ?_ ?_)) <;> simp <;> ring
    · simp only [h1, h2, if_false]
      refine Prod.ext ?_ (Prod.ext ?_ (Prod.ext ?_ ?_)) <;> simp <;> ring

theorem arrowEndsFloat_vector (dscale : α) (position : Int) (mat : cairo_matrix_t α)
    (j i : Int) (h v : α) :
    (arrowEndsFloat dscale position mat j i h v).2.2.1
        - (arrowEndsFloat dscale position mat j i h v).1 = h * dscale ∧
    (arrowEndsFloat dscale position mat j i h v).2.2.2
        - (arrowEndsFloat dscale position mat j i h v).2.1 = v * dscale := by
  unfold arrowEndsFloat
  by_cases h1 : position < 0
  · simp only [h1, if_true]
    constructor <;> ring
  · by_cases h2 : position = 0
    · subst h2
      simp only [lt_irrefl, if_true, if_false]
      constructor <;> ring
    · simp only [h1, h2, if_false]
      constructor <;> ring

end FloatVariant

theorem cellsOf_one_by_one : cellsOf 0 0 0 0 = [(0, 0)] := by
  decide

section TransformOrder

variable {α : Type} [LinearOrderedField α]

/-- C17: with the same explicit scale (`|scale|` below neither zero epsilon) and an
affine whose linear part is the identity (`a = d = 1`, `b = c = 0`, any `e`, `f`),
giza_vector_float and giza_vector return the same context, so the same sequence of
arrows. For every affine the arrow of giza_vector_float for a cell has
`head − tail = (h·dscale, v·dscale)`, the offset being added to the transformed cell
centre, while that of giza_vector has `head − tail = L·(h·dscale, v·dscale)`, both
endpoints being transformed. On one cell `(3, 4)` with scale 1, `position = 1` and
the shear `(1, 0, 1, 1, 0, 0)` giza_vector draws `(1, 1/2) → (8, 9/2)` and
giza_vector_float draws `(1, 1/2) → (4, 9/2)`. -/
theorem giza_vector_float_transform_order (sqrt : α → α) (epsF epsD : α) (g : Grid α)
    (i1 i2 j1 j2 : Int) (scale : α) (position : Int) (affine : Affine α) (blank : α) (s : Ctx α)
    (ha : affine.a = 1) (hb : affine.b = 0) (hc : affine.c = 0) (hd : affine.d = 1)
    (hF : ¬ |scale| < epsF) (hD : ¬ |scale| < epsD) :
    giza_vector_float sqrt epsF epsD g i1 i2 j1 j2 scale position affine blank s
      = giza_vector sqrt epsD g i1 i2 j1 j2 scale position affine blank s ∧
    (∀ (A : Affine α) (dscale : α) (p : Int) (j i : Int) (h v : α),
      ((arrowEndsFloat dscale p (cairo_matrix_init A.a A.b A.c A.d A.e A.f) j i h v).2.2.1
          - (arrowEndsFloat dscale p (cairo_matrix_init A.a A.b A.c A.d A.e A.f) j i h v).1
          = h * dscale ∧
        (arrowEndsFloat dscale p (cairo_matrix_init A.a A.b A.c A.d A.e A.f) j i h v).2.2.2
          - (arrowEndsFloat dscale p (cairo_matrix_init A.a A.b A.c A.d A.e A.f) j i h v).2.1
          = v * dscale) ∧
      ((arrowEnds dscale p (cairo_matrix_init A.a A.b A.c A.d A.e A.f) j i h v).2.2.1
          - (arrowEnds dscale p (cairo_matrix_init A.a A.b A.c A.d A.e A.f) j i h v).1
          = A.a * (h * dscale) + A.c * (v * dscale) ∧
        (arrowEnds dscale p (cairo_matrix_init A.a A.b A.c A.d A.e A.f) j i h v).2.2.2
          - (arrowEnds dscale p (cairo_matrix_init A.a A.b A.c A.d A.e A.f) j i h v).2.1
          = A.b * (h * dscale) + A.d * (v * dscale))) ∧
    (giza_vector (fun x : ℚ => x) (1 / 10) (constGrid 1 1 3 4) 0 0 0 0 1 1 shearAffine 0
        readyCtx
      = some ⟨true, false, [Event.beginBuffer, Event.arrow 1 (1 / 2) 8 (9 / 2),
          Event.endBuffer, Event.flushDevice]⟩ ∧
     giza_vector_float (fun x : ℚ => x) (1 / 10) (1 / 10) (constGrid 1 1 3 4) 0 0 0 0 1 1
        shearAffine 0 readyCtx
      = some ⟨true, false, [Event.beginBuffer, Event.arrow 1 (1 / 2) 4 (9 / 2),
          Event.endBuffer, Event.flushDevice]⟩ ∧
     giza_vector_float (fun x : ℚ => x) (1 / 10) (1 / 10) (constGrid 1 1 3 4) 0 0 0 0 1 1
        shearAffine 0 readyCtx
      ≠ giza_vector (fun x : ℚ => x) (1 / 10) (constGrid 1 1 3 4) 0 0 0 0 1 1 shearAffine 0
        readyCtx) := by
  have hdbl : giza_vector (fun x : ℚ => x) (1 / 10) (constGrid 1 1 3 4) 0 0 0 0 1 1 shearAffine 0
        readyCtx
      = some ⟨true, false, [Event.beginBuffer, Event.arrow 1 (1 / 2) 8 (9 / 2),
          Event.endBuffer, Event.flushDevice]⟩ := by
    have hd1 : drawnCells (constGrid 1 1 (3 : ℚ) 4) 0 0 0 0 0 = [(0, 0)] := by
      simp [drawnCells, cellsOf_one_by_one, isDrawn, constGrid]
    have he : effScale (fun x : ℚ => x) (1 / 10) (constGrid 1 1 (3 : ℚ) 4) 0 0 0 0 1
        shearAffine 0 = some 1 := by
      unfold effScale
      rw [if_neg (by norm_num)]
    rw [giza_vector_valid _ _ _ _ _ _ _ _ _ _ _ _ rfl (by decide) (by decide), he, hd1]
    simp only [finalCtx, readyCtx, List.map_cons, List.map_nil, arrowEvent, cellArrow,
      arrowEnds, cairo_matrix_init, cairo_matrix_transform_point, constGrid, shearAffine]
    norm_num
  have hflt : giza_vector_float (fun x : ℚ => x) (1 / 10) (1 / 10) (constGrid 1 1 3 4) 0 0 0 0
        1 1 shearAffine 0 readyCtx
      = some ⟨true, false, [Event.beginBuffer, Event.arrow 1 (1 / 2) 4 (9 / 2),
          Event.endBuffer, Event.flushDevice]⟩ := by
    have hd1 : drawnCells (constGrid 1 1 (3 : ℚ) 4) 0 0 0 0 0 = [(0, 0)] := by
      simp [drawnCells, cellsOf_one_by_one, isDrawn, constGrid]
    obtain ⟨r, hr1, hr2⟩ := giza_vector_float_valid (fun x : ℚ => x) (1 / 10) (1 / 10)
      (constGrid 1 1 (3 : ℚ) 4) 0 0 0 0 1 1 shearAffine 0 readyCtx rfl (by decide) (by decide)
    have he : findScaleFloat (fun x : ℚ => x) (1 / 10) (1 / 10) (constGrid 1 1 (3 : ℚ) 4)
        0 0 0 0 1 shearAffine 0 = some (some 1) := by
      unfold findScaleFloat
      rw [if_neg (by norm_num)]
    rw [he] at hr1
    rw [hr2, ← Option.some.inj hr1, hd1]
    simp only [finalCtx, readyCtx, List.map_cons, List.map_nil, arrowEvent,
      arrowEndsFloat, cairo_matrix_init, cairo_matrix_transform_point, constGrid, shearAffine]
    norm_num
  refine ⟨?_, ?_, hdbl, hflt, ?_⟩
  · have h1 : findScaleFloat sqrt epsF epsD g i1 i2 j1 j2 scale affine blank
        = some (some scale) := by
      unfold findScaleFloat
      rw [if_neg hF]
    have h2 : findScale sqrt epsD g i1 i2 j1 j2 scale affine blank = some (some scale) := by
      unfold findScale
      rw [if_neg hD]
    have hcell : ∀ j i, drawCellFloat g scale position
          (cairo_matrix_init affine.a affine.b affine.c affine.d affine.e affine.f) blank j i
        = drawCell g scale position
          (cairo_matrix_init affine.a affine.b affine.c affine.d affine.e affine.f) blank j i := by
      intro j i
      funext t
      unfold drawCellFloat drawCell
      simp only [arrowEndsFloat_eq_of_identity _ _ _ _ _ _ _
        (show (cairo_matrix_init affine.a affine.b affine.c affine.d affine.e affine.f).xx = 1
          from ha)
        (show (cairo_matrix_init affine.a affine.b affine.c affine.d affine.e affine.f).yx = 0
          from hb)
        (show (cairo_matrix_init affine.a affine.b affine.c affine.d affine.e affine.f).xy = 0
          from hc)
        (show (cairo_matrix_init affine.a affine.b affine.c affine.d affine.e affine.f).yy = 1
          from hd)]
    unfold giza_vector_float giza_vector
    simp only [h1, h2, hcell]
  · intro A dscale p j i h v
    exact ⟨arrowEndsFloat_vector dscale p _ j i h v, arrowEnds_diff dscale p _ j i h v⟩
  · rw [hdbl, hflt]
    simp

end TransformOrder

/-- Witness for C17: the scenario grid under a pure translation with explicit
scale 2. -/
theorem giza_vector_float_transform_order_witness :
    giza_vector_float (fun x : ℚ => x) (1 / 10) (1 / 10) scenarioGrid 0 1 0 0 2 0
        ⟨1, 0, 0, 1, 5, 7⟩ 0 readyCtx
      = giza_vector (fun x : ℚ => x) (1 / 10) scenarioGrid 0 1 0 0 2 0 ⟨1, 0, 0, 1, 5, 7⟩ 0
        readyCtx :=
  (giza_vector_float_transform_order (fun x : ℚ => x) (1 / 10) (1 / 10) scenarioGrid 0 1 0 0 2 0
    ⟨1, 0, 0, 1, 5, 7⟩ 0 readyCtx rfl rfl rfl rfl (by norm_num) (by norm_num)).1

theorem forLoop_none {σ : Type} (body : Int → σ → Option σ) :
    ∀ (k : Nat) (lo : Int) (s : σ),
      (∃ i, lo ≤ i ∧ i < lo + k ∧ ∀ t, body i t = none) → forLoop body k lo s = none := by
  intro k
  induction k with
  | zero =>
    intro lo s h
    obtain ⟨i, h1, h2, _⟩ := h
    simp at h2
    omega
  | succ k ih =>
    intro lo s h
    obtain ⟨i, h1, h2, h3⟩ := h
    rw [forLoop]
    cases hb : body lo s with
    | none => rfl
    | some t =>
      rw [Option.some_bind]
      apply ih
      refine ⟨i, ?_, ?_, h3⟩
      · by_contra hlt
        have : i = lo := by omega
        subst this
        rw [h3 s] at hb
        exact Option.noConfusion hb
      · push_cast at h2
        omega

theorem forRange_none {σ : Type} (body : Int → σ → Option σ) (lo hi i : Int) (s : σ)
    (h1 : lo ≤ i) (h2 : i ≤ hi) (h3 : ∀ t, body i t = none) : forRange lo hi body s = none := by
  unfold forRange
  apply forLoop_none
  exact ⟨i, h1, by omega, h3⟩

theorem nested_none {σ : Type} (body : Int → Int → σ → Option σ) (i1 i2 j1 j2 j i : Int) (s : σ)
    (hj : j1 ≤ j ∧ j ≤ j2) (hi : i1 ≤ i ∧ i ≤ i2) (h : ∀ t, body j i t = none) :
    forRange j1 j2 (fun j => forRange i1 i2 (fun i => body j i)) s = none :=
  forRange_none _ j1 j2 j s hj.1 hj.2 (fun t => forRange_none _ i1 i2 i t hi.1 hi.2 h)

section InBounds

variable {α : Type} [LinearOrderedField α]

theorem giza_vector_isSome (sqrt : α → α) (eps : α) (g : Grid α) (i1 i2 j1 j2 : Int)
    (scale : α) (position : Int) (affine : Affine α) (blank : α) (s : Ctx α) :
    (giza_vector sqrt eps g i1 i2 j1 j2 scale position affine blank s).isSome = true := by
  cases hr : s.ready
  · simp [giza_vector, _giza_check_device_ready, hr]
  · by_cases h1 : i1 < 0 ∨ i2 ≥ g.n ∨ i1 > i2
    · simp [giza_vector, _giza_check_device_ready, hr, h1]
    · by_cases h2 : j1 < 0 ∨ j2 ≥ g.m ∨ j1 > j2
      · simp [giza_vector, _giza_check_device_ready, hr, h1, h2]
      · rw [giza_vector_valid sqrt eps g i1 i2 j1 j2 scale position affine blank s hr
          (by omega) (by omega)]
        rfl

theorem giza_vector_float_isSome (sqrt : α → α) (epsF epsD : α) (g : Grid α)
    (i1 i2 j1 j2 : Int) (scale : α) (position : Int) (affine : Affine α) (blank : α)
    (s : Ctx α) :
    (giza_vector_float sqrt epsF epsD g i1 i2 j1 j2 scale position affine blank s).isSome
      = true := by
  cases hr : s.ready
  · simp [giza_vector_float, _giza_check_device_ready, hr]
  · by_cases h1 : i1 < 0 ∨ i2 ≥ g.n ∨ i1 > i2
    · simp [giza_vector_float, _giza_check_device_ready, hr, h1]
    · by_cases h2 : j1 < 0 ∨ j2 ≥ g.m ∨ j1 > j2
      · simp [giza_vector_float, _giza_check_device_ready, hr, h1, h2]
      · obtain ⟨r, _, h⟩ := giza_vector_float_valid sqrt epsF epsD g i1 i2 j1 j2 scale position
          affine blank s hr (by omega) (by omega)
        rw [h]
        rfl

/-- C18: a read `horizontal[j][i]` or `vertical[j][i]` has a value exactly when
`0 ≤ j < m` and `0 ≤ i < n`, and each of the three loops (the scan, the drawing loop
of giza_vector, that of giza_vector_float) has no result when its index ranges
contain a cell out of bounds. For every `n`, `m`, `i1`, `i2`, `j1`, `j2` and every
other input, giza_vector and giza_vector_float have a result, so no read of theirs
is out of bounds; once both range checks have passed, every cell the loops visit is
in bounds and both its reads have a value; when a range check fails the result is
the same for every content of the two arrays. -/
theorem grid_reads_in_bounds (sqrt : α → α) (epsF epsD : α) (g : Grid α)
    (i1 i2 j1 j2 : Int) (scale : α) (position : Int) (affine : Affine α) (blank : α)
    (s : Ctx α) :
    (∀ j i : Int, (g.readH j i).isSome = true ↔ (0 ≤ j ∧ j < g.m ∧ 0 ≤ i ∧ i < g.n)) ∧
    (∀ j i : Int, (g.readV j i).isSome = true ↔ (0 ≤ j ∧ j < g.m ∧ 0 ≤ i ∧ i < g.n)) ∧
    (∀ (dscale : α) (mat : cairo_matrix_t α) (t : Ctx α) (j i : Int),
      (j1 ≤ j ∧ j ≤ j2) → (i1 ≤ i ∧ i ≤ i2) → ¬ (0 ≤ j ∧ j < g.m ∧ 0 ≤ i ∧ i < g.n) →
        forRange j1 j2 (fun j => forRange i1 i2 (fun i => scanCell sqrt g blank j i)) dscale
          = none ∧
        forRange j1 j2 (fun j => forRange i1 i2
          (fun i => drawCell g dscale position mat blank j i)) t = none ∧
        forRange j1 j2 (fun j => forRange i1 i2
          (fun i => drawCellFloat g dscale position mat blank j i)) t = none) ∧
    (giza_vector sqrt epsD g i1 i2 j1 j2 scale position affine blank s).isSome = true ∧
    (giza_vector_float sqrt epsF epsD g i1 i2 j1 j2 scale position affine blank s).isSome
      = true ∧
    (¬ (i1 < 0 ∨ i2 ≥ g.n ∨ i1 > i2) → ¬ (j1 < 0 ∨ j2 ≥ g.m ∨ j1 > j2) →
      ∀ c ∈ cellsOf i1 i2 j1 j2,
        (0 ≤ c.2 ∧ c.2 < g.n ∧ 0 ≤ c.1 ∧ c.1 < g.m) ∧
        g.readH c.1 c.2 = some (g.horizontal c.1 c.2) ∧
        g.readV c.1 c.2 = some (g.vertical c.1 c.2)) ∧
    (((i1 < 0 ∨ i2 ≥ g.n ∨ i1 > i2) ∨ (j1 < 0 ∨ j2 ≥ g.m ∨ j1 > j2)) →
      ∀ hz vt : Int → Int → α,
        giza_vector sqrt epsD ⟨g.n, g.m, hz, vt⟩ i1 i2 j1 j2 scale position affine blank s
          = giza_vector sqrt epsD g i1 i2 j1 j2 scale position affine blank s ∧
        giza_vector_float sqrt epsF epsD ⟨g.n, g.m, hz, vt⟩ i1 i2 j1 j2 scale position affine
            blank s
          = giza_vector_float sqrt epsF epsD g i1 i2 j1 j2 scale position affine blank s) := by
  refine ⟨?_, ?_, ?_, giza_vector_isSome _ _ _ _ _ _ _ _ _ _ _ _,
    giza_vector_float_isSome _ _ _ _ _ _ _ _ _ _ _ _ _, ?_, ?_⟩
  · intro j i
    unfold Grid.readH
    split_ifs with h <;> simp [h]
  · intro j i
    unfold Grid.readV
    split_ifs with h <;> simp [h]
  · intro dscale mat t j i hj hi h
    have hH : g.readH j i = none := by
      unfold Grid.readH
      rw [if_neg h]
    refine ⟨nested_none _ i1 i2 j1 j2 j i _ hj hi ?_, nested_none _ i1 i2 j1 j2 j i _ hj hi ?_,
      nested_none _ i1 i2 j1 j2 j i _ hj hi ?_⟩
    · intro u
      simp [scanCell, hH]
    · intro u
      simp [drawCell, hH]
    · intro u
      simp [drawCellFloat, hH]
  · intro h1 h2 c hc
    rw [mem_cellsOf] at hc
    have hj : 0 ≤ c.1 ∧ c.1 < g.m := by omega
    have hi : 0 ≤ c.2 ∧ c.2 < g.n := by omega
    exact ⟨⟨hi.1, hi.2, hj.1, hj.2⟩, readH_inBounds g c.1 c.2 hj hi,
      readV_inBounds g c.1 c.2 hj hi⟩
  · intro hbad hz vt
    cases hr : s.ready
    · simp [giza_vector, giza_vector_float, _giza_check_device_ready, hr]
    · by_cases h1 : i1 < 0 ∨ i2 ≥ g.n ∨ i1 > i2
      · simp [giza_vector, giza_vector_float, _giza_check_device_ready, hr, h1]
      · have h2 : j1 < 0 ∨ j2 ≥ g.m ∨ j1 > j2 := hbad.resolve_left h1
        simp [giza_vector, giza_vector_float, _giza_check_device_ready, hr, h1, h2]

end InBounds

/-! ## The device-space box is a rectangle (C19) -/

/-- C19: with real cosine and sine, for every anchor, angle, justification and text,
the device-space corners `P0, P1, P3` computed by giza_qtext satisfy
`(P3 − P0) · (P1 − P0) = 0`, `|P3 − P0| = |width|` and `|P1 − P0| = |height|`, with
`(width, height)` the measured size. -/
theorem giza_qtext_device_rectangle (E : TextEnv ℝ) (x y angle just : ℝ) (text : String)
    (s : TextCtx ℝ) (hcos : E.cos = Real.cos) (hsin : E.sin = Real.sin) :
    ((qtextDeviceBox E x y angle just text s).1 3 - (qtextDeviceBox E x y angle just text s).1 0)
        * ((qtextDeviceBox E x y angle just text s).1 1
          - (qtextDeviceBox E x y angle just text s).1 0)
      + ((qtextDeviceBox E x y angle just text s).2 3
          - (qtextDeviceBox E x y angle just text s).2 0)
        * ((qtextDeviceBox E x y angle just text s).2 1
          - (qtextDeviceBox E x y angle just text s).2 0) = 0 ∧
    Real.sqrt
      (((qtextDeviceBox E x y angle just text s).1 3
          - (qtextDeviceBox E x y angle just text s).1 0) ^ 2
        + ((qtextDeviceBox E x y angle just text s).2 3
          - (qtextDeviceBox E x y angle just text s).2 0) ^ 2)
      = |(E.parseSize text s.ch).1| ∧
    Real.sqrt
      (((qtextDeviceBox E x y angle just text s).1 1
          - (qtextDeviceBox E x y angle just text s).1 0) ^ 2
        + ((qtextDeviceBox E x y angle just text s).2 1
          - (qtextDeviceBox E x y angle just text s).2 0) ^ 2)
      = |(E.parseSize text s.ch).2.1| := by
  have hcs := Real.cos_sq_add_sin_sq (angle * E.GIZA_DEG_TO_RAD)
  simp only [qtextDeviceBox, deviceBox, Matrix.cons_val_zero, Matrix.cons_val_one,
    Matrix.cons_val_three, Matrix.cons_val_succ, Matrix.head_cons, Matrix.tail_cons, hcos, hsin]
  refine ⟨by ring, ?_, ?_⟩
  · rw [← Real.sqrt_sq_eq_abs]
    congr 1
    linear_combination ((E.parseSize text s.ch).1) ^ 2 * hcs
  · rw [← Real.sqrt_sq_eq_abs]
    congr 1
    linear_combination ((E.parseSize text s.ch).2.1) ^ 2 * hcs

/-- Witness for C19: a text measured as `2 × 1`, anchored at `(3, 4)` with angle 30
and justification 1/2. -/
theorem giza_qtext_device_rectangle_witness :
    Real.sqrt
      (((qtextDeviceBox (⟨Real.cos, Real.sin, Real.pi / 180, fun _ p => p, fun _ p => p,
            fun _ ch => (2, 1, ch)⟩ : TextEnv ℝ) 3 4 30 (1 / 2) "giza"
            ⟨true, 1, Trans.GIZA_TRANS_WORLD, []⟩).1 3
          - (qtextDeviceBox (⟨Real.cos, Real.sin, Real.pi / 180, fun _ p => p, fun _ p => p,
            fun _ ch => (2, 1, ch)⟩ : TextEnv ℝ) 3 4 30 (1 / 2) "giza"
            ⟨true, 1, Trans.GIZA_TRANS_WORLD, []⟩).1 0) ^ 2
        + ((qtextDeviceBox (⟨Real.cos, Real.sin, Real.pi / 180, fun _ p => p, fun _ p => p,
            fun _ ch => (2, 1, ch)⟩ : TextEnv ℝ) 3 4 30 (1 / 2) "giza"
            ⟨true, 1, Trans.GIZA_TRANS_WORLD, []⟩).2 3
          - (qtextDeviceBox (⟨Real.cos, Real.sin, Real.pi / 180, fun _ p => p, fun _ p => p,
            fun _ ch => (2, 1, ch)⟩ : TextEnv ℝ) 3 4 30 (1 / 2) "giza"
            ⟨true, 1, Trans.GIZA_TRANS_WORLD, []⟩).2 0) ^ 2)
      = |(2 : ℝ)| :=
  (giza_qtext_device_rectangle (⟨Real.cos, Real.sin, Real.pi / 180, fun _ p => p, fun _ p => p,
    fun _ ch => (2, 1, ch)⟩ : TextEnv ℝ) 3 4 30 (1 / 2) "giza"
    ⟨true, 1, Trans.GIZA_TRANS_WORLD, []⟩ rfl rfl).2.1

/-! ## The arrow vector (C20) -/

section Vector

variable {α : Type} [LinearOrderedField α]

/-- C20: a call on a ready device with valid ranges that reaches the drawing loop
with the scale `dscale` passes to giza_arrow, for each drawn cell holding `(h, v)`, an
arrow with `head − tail = (a·(dscale·h) + c·(dscale·v), b·(dscale·h) + d·(dscale·v))`;
and the `head − tail` computed for a cell value is the same for every `position`,
every translation `(e, f)` and every cell `(j, i)`. -/
theorem giza_vector_arrow_vector (sqrt : α → α) (eps : α) (g : Grid α) (i1 i2 j1 j2 : Int)
    (scale : α) (position : Int) (affine : Affine α) (blank : α) (s : Ctx α) (dscale : α)
    (hr : s.ready = true) (hi : 0 ≤ i1 ∧ i1 ≤ i2 ∧ i2 < g.n) (hj : 0 ≤ j1 ∧ j1 ≤ j2 ∧ j2 < g.m)
    (hreach : findScale sqrt eps g i1 i2 j1 j2 scale affine blank = some (some dscale)) :
    (∃ evs : List (Event α),
      giza_vector sqrt eps g i1 i2 j1 j2 scale position affine blank s
        = some { s with trace := s.trace ++ evs } ∧
      List.Forall₂
        (fun (c : Int × Int) (r : α × α × α × α) =>
          r.2.2.1 - r.1 = affine.a * (dscale * g.horizontal c.1 c.2)
            + affine.c * (dscale * g.vertical c.1 c.2) ∧
          r.2.2.2 - r.2.1 = affine.b * (dscale * g.horizontal c.1 c.2)
            + affine.d * (dscale * g.vertical c.1 c.2))
        (drawnCells g blank i1 i2 j1 j2) (arrowsOf evs)) ∧
    (∀ (p q : Int) (e f : α) (j i k l : Int) (h v : α),
      (arrowEnds dscale p (cairo_matrix_init affine.a affine.b affine.c affine.d affine.e
            affine.f) j i h v).2.2.1
          - (arrowEnds dscale p (cairo_matrix_init affine.a affine.b affine.c affine.d affine.e
            affine.f) j i h v).1
        = (arrowEnds dscale q (cairo_matrix_init affine.a affine.b affine.c affine.d e f)
            k l h v).2.2.1
          - (arrowEnds dscale q (cairo_matrix_init affine.a affine.b affine.c affine.d e f)
            k l h v).1 ∧
      (arrowEnds dscale p (cairo_matrix_init affine.a affine.b affine.c affine.d affine.e
            affine.f) j i h v).2.2.2
          - (arrowEnds dscale p (cairo_matrix_init affine.a affine.b affine.c affine.d affine.e
            affine.f) j i h v).2.1
        = (arrowEnds dscale q (cairo_matrix_init affine.a affine.b affine.c affine.d e f)
            k l h v).2.2.2
          - (arrowEnds dscale q (cairo_matrix_init affine.a affine.b affine.c affine.d e f)
            k l h v).2.1) := by
  constructor
  · rw [findScale_valid sqrt eps g i1 i2 j1 j2 scale affine blank ⟨hi.1, hi.2.2⟩
      ⟨hj.1, hj.2.2⟩] at hreach
    rw [giza_vector_valid sqrt eps g i1 i2 j1 j2 scale position affine blank s hr hi hj,
      Option.some.inj hreach]
    refine ⟨_, rfl, ?_⟩
    rw [arrowsOf_final, arrowsOf_map, List.forall₂_map_right_iff, List.forall₂_same]
    intro c _
    obtain ⟨hx, hy⟩ := arrowEnds_diff dscale position
      (cairo_matrix_init affine.a affine.b affine.c affine.d affine.e affine.f)
      c.1 c.2 (g.horizontal c.1 c.2) (g.vertical c.1 c.2)
    unfold cellArrow
    rw [hx, hy]
    simp only [cairo_matrix_init]
    constructor <;> ring
  · intro p q e f j i k l h v
    obtain ⟨hx, hy⟩ := arrowEnds_diff dscale p
      (cairo_matrix_init affine.a affine.b affine.c affine.d affine.e affine.f) j i h v
    obtain ⟨hx2, hy2⟩ := arrowEnds_diff dscale q
      (cairo_matrix_init affine.a affine.b affine.c affine.d e f) k l h v
    rw [hx, hy, hx2, hy2]
    exact ⟨rfl, rfl⟩

end Vector

/-- Witness for C20: the scenario grid with explicit scale 2 under the shear
`(1, 0, 1, 1, 0, 0)`. -/
theorem giza_vector_arrow_vector_witness :
    ∃ evs : List (Event ℚ),
      giza_vector (fun x : ℚ => x) (1 / 10) scenarioGrid 0 1 0 0 2 0 shearAffine 0 readyCtx
        = some { (readyCtx : Ctx ℚ) with trace := (readyCtx : Ctx ℚ).trace ++ evs } ∧
      List.Forall₂
        (fun (c : Int × Int) (r : ℚ × ℚ × ℚ × ℚ) =>
          r.2.2.1 - r.1
            = (shearAffine : Affine ℚ).a * (2 * (scenarioGrid : Grid ℚ).horizontal c.1 c.2)
              + (shearAffine : Affine ℚ).c * (2 * (scenarioGrid : Grid ℚ).vertical c.1 c.2) ∧
          r.2.2.2 - r.2.1
            = (shearAffine : Affine ℚ).b * (2 * (scenarioGrid : Grid ℚ).horizontal c.1 c.2)
              + (shearAffine : Affine ℚ).d * (2 * (scenarioGrid : Grid ℚ).vertical c.1 c.2))
        (drawnCells (scenarioGrid : Grid ℚ) 0 0 1 0 0) (arrowsOf evs) :=
  (giza_vector_arrow_vector (fun x : ℚ => x) (1 / 10) scenarioGrid 0 1 0 0 2 0 shearAffine 0
    readyCtx 2 rfl (by decide) (by decide) (by
      unfold findScale
      rw [if_neg (by norm_num)])).1

end Giza
